import Mathlib

/-!
Verification development for the CARIAMA media-archive utilities
(modules preferences.py, indexing.py and fdmgm.py).

Python strings are modelled as lists of characters (PyStr), Python ints
as Lean Int (with Nat where the source guarantees non-negativity), and
exceptions as an explicit error type threaded through Except.  Stateful
filesystem operations are modelled as pure functions from a filesystem
state to a new state paired with a result; a raised exception still
returns the mutated state, as in Python.

External library functions (datetime.fromtimestamp, time.strptime,
time.mktime, os.*, shutil.*) are not code of this repository; they are
modelled to their documented semantics on the platform the repository
targets, with a doc comment on each model stating the choice made.
-/

set_option autoImplicit false

/-- Python strings are modelled as lists of characters. -/
abbrev PyStr := List Char

deriving instance DecidableEq for Except

/-- Character class of the regex fragment [A-Za-z]. -/
def isAlphaCh (c : Char) : Bool :=
  (65 ≤ c.toNat && c.toNat ≤ 90) || (97 ≤ c.toNat && c.toNat ≤ 122)

/-- Character class of the regex fragment \d, i.e. the digits 0-9. -/
def isDigitCh (c : Char) : Bool :=
  48 ≤ c.toNat && c.toNat ≤ 57

/-- The decimal digit character for a digit value below ten. -/
def digitCh (d : Nat) : Char := Char.ofNat (48 + d)

/-- Numeric value of a digit character. -/
def digitVal (c : Char) : Nat := c.toNat - 48

/-- Fuel-driven worker for the decimal representation of a Nat
(most significant digit first), mirroring what the Python built-in str
produces on a non-negative int.  The fuel argument only bounds the
recursion; any fuel above the number suffices. -/
def natDigitsAux : Nat → Nat → List Char
  | 0, _ => []
  | fuel + 1, n => if n < 10 then [digitCh n] else natDigitsAux fuel (n / 10) ++ [digitCh (n % 10)]

/-- Decimal representation of a Nat, the model of str(n) for n ≥ 0. -/
def natDigits (n : Nat) : List Char := natDigitsAux (n + 1) n

/-- Reads a digit string back as a number (most significant first). -/
def digitsToNat (l : List Char) : Nat :=
  l.foldl (fun a c => a * 10 + digitVal c) 0

/-- Fuel-driven worker of the zero-padding while-loop of
numberFormatToString: prepends the given count of zero characters. -/
def zeroFillAux : Nat → PyStr → PyStr
  | 0, s => s
  | k + 1, s => zeroFillAux k ('0' :: s)

/-- Model of the while-loop in numberFormatToString that prepends "0"
until the string reaches the requested length. -/
def zeroFill (s : PyStr) (L : Nat) : PyStr := zeroFillAux (L - s.length) s

/-- Messages distinguishing the indexing and importing failures raised
by fdmgm.py (FileIndexingError / FileImportingError reasons). -/
inductive ErrMsg where
  | alreadyIndexed
  | couldNotFormat
  | sameIndexExists
  | fileAlreadyExists
deriving DecidableEq

/-- Path of a file in the modelled filesystem: directory components plus
the basename split into stem and extension, the decomposition that
os.path.dirname / os.path.basename / os.path.splitext perform on the
single path string stored by the Python classes. -/
structure FilePath where
  dir : List PyStr
  stem : PyStr
  ext : PyStr
deriving DecidableEq

/-- One per-file issue collected by Directory.checkIntegrity; the source
appends ValueError(path, message) objects, whose message is one of the
three texts modelled here. -/
inductive IssueKind where
  | invalidIndex
  | wrongDatetime
  | indexNotSet
deriving DecidableEq

/-- Python exceptions observable from the modelled code. -/
inductive PyErr where
  | parserError (code : Nat)
  | valueError
  | typeError
  | keyError
  | fileNotFound
  | fileExists
  | notADirectory
  | fileIndexingError (msg : ErrMsg)
  | fileImportingError (msg : ErrMsg)
  | directoryIntegrityError (issues : List (FilePath × IssueKind))
  | fuelOut
deriving DecidableEq

/-- Model of indexing.numberFormatToString.  The source first builds
str(number), rejects non-int input (excluded here by typing), returns
the sentinel None when length is below one, raises ValueError on a
negative number, and on overflow of the requested length raises in
strict mode or keeps the trailing digits (numString[-length:]) in
non-strict mode; otherwise it zero-pads on the left with a while-loop. -/
def numberFormatToString (number : Int) (length : Int) (strict : Bool) :
    Except PyErr (Option PyStr) :=
  if length < 1 then .ok none
  else if number < 0 then .error .valueError
  else
    let n := number.toNat
    let L := length.toNat
    let numString := natDigits n
    if 10 ^ L ≤ n then
      if strict then .error .valueError
      else .ok (some (numString.drop (numString.length - L)))
    else .ok (some (zeroFill numString L))

/-- Gregorian leap-year test (mirrors the rule the C library datetime
arithmetic uses). -/
def isLeap (y : Nat) : Bool := (y % 4 == 0 && y % 100 != 0) || y % 400 == 0

/-- Number of days in a year. -/
def daysInYear (y : Nat) : Nat := if isLeap y then 366 else 365

/-- Month lengths of a year, January first. -/
def monthLens (y : Nat) : List Nat :=
  [31, if isLeap y then 29 else 28, 31, 30, 31, 30, 31, 31, 30, 31, 30, 31]

/-- Number of leap years in the interval from year 0 inclusive to year
y exclusive of the proleptic Gregorian calendar. -/
def leapCount (y : Nat) : Nat := (y + 3) / 4 - (y + 99) / 100 + (y + 399) / 400

/-- Days from January first of year 0 to January first of year y. -/
def daysFrom0 (y : Nat) : Nat := 365 * y + leapCount y

/-- Days from January first of year a to January first of year b
(zero when b is at or before a). -/
def daysToYearFrom (a b : Nat) : Nat := daysFrom0 b - daysFrom0 a

/-- Greedy year descent: starting at year y with n days remaining,
subtracts whole years until fewer than a year of days remains.  The
fuel argument only bounds the recursion; 365 * fuel above n suffices. -/
def yearSplit : Nat → Nat → Nat → Nat × Nat
  | 0, y, n => (y, n)
  | fuel + 1, y, n =>
    if n < daysInYear y then (y, n) else yearSplit fuel (y + 1) (n - daysInYear y)

/-- Greedy month descent over a list of month lengths: returns the
zero-based month index and the zero-based day of month. -/
def monthSplit : List Nat → Nat → Nat × Nat
  | [], n => (0, n)
  | ml :: rest, n =>
    if n < ml then (0, n)
    else
      let r := monthSplit rest (n - ml)
      (r.1 + 1, r.2)

/-- A calendar datetime at second resolution, the data carried by a
Python datetime / struct_time as far as the modelled code reads it. -/
structure DT where
  y : Nat
  mo : Nat
  d : Nat
  h : Nat
  mi : Nat
  s : Nat
deriving DecidableEq

/-- Days from 0001-01-01 to the start of the Unix epoch. -/
def epochDays : Nat := daysToYearFrom 1 1970

/-- Days from the Unix epoch to 10000-01-01, one past the last day a
Python datetime (MAXYEAR 9999) can represent. -/
def maxDays : Nat := daysToYearFrom 1970 10000

/-- Largest epoch second whose datetime has a year at most 9999. -/
def maxTs : Nat := 86400 * maxDays - 1

/-- Model of datetime.fromtimestamp at second precision.  Returns none
exactly where the call raises on the platform the repository targets
(Windows paths appear in preferences.py, and the spec states that a
negative timestamp is invalid): an OSError for a negative timestamp and
a ValueError once the year exceeds 9999.  Both exceptions are caught by
genIndex.  The timezone is modelled as UTC with no DST. -/
def fromtimestamp (t : Int) : Option DT :=
  if t < 0 then none
  else
    let tn := t.toNat
    let days := tn / 86400
    if maxDays ≤ days then none
    else
      let ys := yearSplit (days + 1) 1970 days
      let ms := monthSplit (monthLens ys.1) ys.2
      some ⟨ys.1, ms.1 + 1, ms.2 + 1, tn % 86400 / 3600, tn % 3600 / 60, tn % 60⟩

/-- Days from 0001-01-01 to a calendar date. -/
def daysAD (y mo d : Nat) : Nat :=
  daysToYearFrom 1 y + ((monthLens y).take (mo - 1)).sum + (d - 1)

/-- Model of time.mktime on a struct_time produced by strptime, in a
UTC, no-DST environment: seconds between the Unix epoch and the given
calendar datetime, as the spec describes the decoded timestamp.  Total
on strptime-validated dates; pre-epoch dates give a negative value. -/
def mktime (dt : DT) : Int :=
  ((daysAD dt.y dt.mo dt.d : Int) - (epochDays : Int)) * 86400
    + dt.h * 3600 + dt.mi * 60 + dt.s

/-- Decimal representation left-padded with zero characters to the
given width (matching Python strftime zero-padded numeric fields). -/
def padN (w n : Nat) : PyStr :=
  List.replicate (w - (natDigits n).length) '0' ++ natDigits n

/-- Model of datetime.strftime with the configured format
INDEX_DATETIME_FORMAT, i.e. year, month, day, hour, minute and second
as zero-padded decimal fields of widths 4, 2, 2, 2, 2 and 2. -/
def strftimeIdx (dt : DT) : PyStr :=
  padN 4 dt.y ++ (padN 2 dt.mo ++ (padN 2 dt.d ++ (padN 2 dt.h ++ (padN 2 dt.mi ++ padN 2 dt.s))))

/-- Model of time.strptime with the configured format on the 14-digit
date group cut out by the index grammar.  Python strptime compiles the
format to a regex whose two-digit alternatives are preferred and whose
one-digit fallbacks can never complete a 14-character match, so the
effective behaviour on a 14-digit string is fixed-width slicing plus
the per-field range checks of the regex alternatives (month 01-12,
day 01-31, hour 00-23, minute 00-59, second 00-61) followed by the
day-of-month validation the datetime.date constructor performs.
Returns none exactly where strptime raises ValueError. -/
def strptimeIdx (ds : PyStr) : Option DT :=
  if ds.length = 14 ∧ ds.all isDigitCh then
    let y := digitsToNat (ds.take 4)
    let r1 := ds.drop 4
    let mo := digitsToNat (r1.take 2)
    let r2 := r1.drop 2
    let d := digitsToNat (r2.take 2)
    let r3 := r2.drop 2
    let h := digitsToNat (r3.take 2)
    let r4 := r3.drop 2
    let mi := digitsToNat (r4.take 2)
    let s := digitsToNat (r4.drop 2)
    if 1 ≤ y ∧ 1 ≤ mo ∧ mo ≤ 12 ∧ 1 ≤ d ∧ d ≤ 31 ∧ h ≤ 23 ∧ mi ≤ 59 ∧ s ≤ 61
        ∧ d ≤ (monthLens y).getD (mo - 1) 0 then
      some ⟨y, mo, d, h, mi, s⟩
    else none
  else none

/-- The media type footage. -/
def sFootage : PyStr := "footage".toList

/-- The media type ctraps. -/
def sCtraps : PyStr := "ctraps".toList

/-- The media type audio. -/
def sAudio : PyStr := "audio".toList

/-- The prefix of footage. -/
def sMVDC : PyStr := "MVDC".toList

/-- The prefix of ctraps. -/
def sTRDC : PyStr := "TRDC".toList

/-- The prefix of audio. -/
def sMSDC : PyStr := "MSDC".toList

/-- The INDEX_PREFIX mapping of preferences.py, in the insertion order
of the Python dict (which Python 3.7 preserves for values() and items()
iteration). -/
def INDEX_PREFIX : List (PyStr × PyStr) :=
  [(sFootage, sMVDC), (sCtraps, sTRDC), (sAudio, sMSDC)]

/-- Model of indexing.getPrefix: dictionary lookup on INDEX_PREFIX,
translating the KeyError of a missing media type (including None, which
matches no key) to ValueError. -/
def getPrefix (mediaType : Option PyStr) : Except PyErr PyStr :=
  match mediaType with
  | none => .error .valueError
  | some m =>
    match INDEX_PREFIX.find? (fun kv => decide (kv.1 = m)) with
    | some kv => .ok kv.2
    | none => .error .valueError

/-- The named groups a regex match of one of the three index patterns
produces: pref is always captured, date and suff only when the pattern
has the corresponding group. -/
structure Groups where
  pref : PyStr
  date : Option PyStr
  suff : Option PyStr
deriving DecidableEq

/-- Match of the full index grammar INDEX_PARSING_EXPRESSION, i.e.
(?P<pref>[A-Za-z]+)(?P<date>\d{14})(?P<suff>\d{5}$).  Because letters
and digits are disjoint character classes and the digit groups have
fixed total width 19 anchored at the end, the regex matches exactly
when the string is a nonempty run of letters followed by exactly 19
digits; backtracking can produce no other decomposition.  Returns none
where re.match returns None. -/
def matchFull (s : PyStr) : Option Groups :=
  let L := s.takeWhile isAlphaCh
  let rest := s.drop L.length
  if L.length = 0 then none
  else if rest.length = 19 ∧ rest.all isDigitCh then
    some ⟨L, some (rest.take 14), some (rest.drop 14)⟩
  else none

/-- Match of the pattern (?P<pref>[A-Za-z]+)(?P<date>\d{14}).* used by
getDatetime and setDatetime when reading the date out of an index:
a nonempty run of letters followed by at least 14 digits, the tail
arbitrary. -/
def matchPrefDate (s : PyStr) : Option Groups :=
  let L := s.takeWhile isAlphaCh
  let rest := s.drop L.length
  if L.length = 0 then none
  else if 14 ≤ rest.length ∧ (rest.take 14).all isDigitCh then
    some ⟨L, some (rest.take 14), none⟩
  else none

/-- Match of the pattern (?P<pref>[A-Za-z]+).* used by getMediaType:
any string starting with at least one letter. -/
def matchPrefOnly (s : PyStr) : Option Groups :=
  let L := s.takeWhile isAlphaCh
  if L.length = 0 then none else some ⟨L, none, none⟩

/-- The result dict built by indexing.parseIndex; each field is present
(some) exactly when the corresponding key was inserted. -/
structure ParseRes where
  pref : Option PyStr := none
  mediatype : Option PyStr := none
  datestring : Option PyStr := none
  datets : Option Int := none
  suff : Option PyStr := none
deriving DecidableEq

/-- The group-processing body of indexing.parseIndex, shared by the
three patterns the repository uses.  A failed overall match raises
ParserError(0) from the AttributeError handler REGARDLESS of
ignoreErrors.  A matched pref is stored, then checked against the
registered prefixes: on failure ParserError(1) unless lenient, on
success the first media type whose value equals the prefix is stored.
A matched date is stored as datestring before decoding; decoding
failure raises ParserError(2) unless lenient, success stores the
mktime timestamp as datets.  A matched suff is stored last. -/
def parseIndexCore (g : Option Groups) (ignoreErrors : Bool) : Except PyErr ParseRes :=
  match g with
  | none => .error (.parserError 0)
  | some gr =>
    let r0 : ParseRes := { pref := some gr.pref }
    let step1 : Except PyErr ParseRes :=
      match INDEX_PREFIX.find? (fun kv => decide (kv.2 = gr.pref)) with
      | none => if ignoreErrors then .ok r0 else .error (.parserError 1)
      | some kv => .ok { r0 with mediatype := some kv.1 }
    match step1 with
    | .error e => .error e
    | .ok r1 =>
      let step2 : Except PyErr ParseRes :=
        match gr.date with
        | none => .ok r1
        | some ds =>
          let r2 := { r1 with datestring := some ds }
          match strptimeIdx ds with
          | none => if ignoreErrors then .ok r2 else .error (.parserError 2)
          | some dt => .ok { r2 with datets := some (mktime dt) }
      match step2 with
      | .error e => .error e
      | .ok r2 => .ok { r2 with suff := gr.suff }

/-- Model of indexing.parseIndex with the default expression
INDEX_PARSING_EXPRESSION and default date format. -/
def parseFull (s : PyStr) (ignoreErrors : Bool) : Except PyErr ParseRes :=
  parseIndexCore (matchFull s) ignoreErrors

/-- Model of indexing.parseIndex with the pref-and-date pattern used by
getDatetime and setDatetime. -/
def parsePrefDate (s : PyStr) (ignoreErrors : Bool) : Except PyErr ParseRes :=
  parseIndexCore (matchPrefDate s) ignoreErrors

/-- Model of indexing.parseIndex with the pref-only pattern used by
getMediaType. -/
def parsePrefOnly (s : PyStr) (ignoreErrors : Bool) : Except PyErr ParseRes :=
  parseIndexCore (matchPrefOnly s) ignoreErrors

/-- Model of indexing.genIndex.  The index string is built from the
prefix, the strftime-formatted timestamp and the non-strict 5-wide
suffix; AssertionError, ValueError and OSError during that construction
become ParserError(1000).  The result is then self-validated with
parseIndex, whose ParserError is NOT in the caught exception tuple and
therefore propagates as raised. -/
def genIndex (pfx : PyStr) (timestamp : Int) (suffixNum : Int) : Except PyErr PyStr :=
  match fromtimestamp timestamp with
  | none => .error (.parserError 1000)
  | some dt =>
    match numberFormatToString suffixNum 5 false with
    | .error _ => .error (.parserError 1000)
    | .ok none => .error .typeError
    | .ok (some suff) =>
      let indx := pfx ++ (strftimeIdx dt ++ suff)
      match parseFull indx false with
      | .error e => .error e
      | .ok _ => .ok indx

/-- Metadata of one file in the modelled filesystem: an abstract
content identity (filecmp.cmp with shallow comparison disabled compares
byte content; equal content fields model byte-identical files), the
byte size, and the modification and access timestamps at second
precision. -/
structure FData where
  content : Nat
  size : Nat
  mtime : Int
  atime : Int
deriving DecidableEq

/-- The modelled filesystem: an association list of files (path to
metadata, paths distinct by construction of the update operations) and
the list of existing directories. -/
structure FS where
  files : List (FilePath × FData)
  dirs : List (List PyStr)
deriving DecidableEq

/-- Lookup of a file by path (os.path.isfile / metadata reads). -/
def fget (fs : FS) (p : FilePath) : Option FData :=
  (fs.files.find? (fun e => decide (e.1 = p))).map (fun e => e.2)

/-- Write of a file entry: replaces the entry at the path when present,
appends it otherwise. -/
def fsetL : List (FilePath × FData) → FilePath → FData → List (FilePath × FData)
  | [], p, d => [(p, d)]
  | e :: rest, p, d => if e.1 = p then (p, d) :: rest else e :: fsetL rest p d

/-- Removal of a file entry (os.remove / the source half of a rename). -/
def fdelL (l : List (FilePath × FData)) (p : FilePath) : List (FilePath × FData) :=
  l.filter (fun e => decide (e.1 ≠ p))

/-- Ensures a directory exists, the os.makedirs call both copyTo and
moveTo and importFile perform when the destination directory is
missing. -/
def ensureDir (fs : FS) (d : List PyStr) : FS :=
  if d ∈ fs.dirs then fs else ⟨fs.files, d :: fs.dirs⟩

/-- The files os.listdir shows in one directory (the collision scan of
copyTo and moveTo looks only at direct children). -/
def filesInDir (fs : FS) (d : List PyStr) : List (FilePath × FData) :=
  fs.files.filter (fun e => decide (e.1.dir = d))

/-- Wrapper state of fdmgm.File: the nullable path attribute and the
nullable media type attribute. -/
structure MFile where
  path : Option FilePath
  mediaType : Option PyStr
deriving DecidableEq

/-- Wrapper state of fdmgm.Directory: the nullable path attribute and
the nullable media type attribute. -/
structure MDir where
  path : Option (List PyStr)
  mediaType : Option PyStr
deriving DecidableEq

/-- Model of File.getPath: the method body returns the stored path
attribute unconditionally, so it is total; it is wrapped in Except for
a signature uniform with the other accessors (it never errors). -/
def getPathF (f : MFile) : Except PyErr (Option FilePath) := .ok f.path

/-- Model of File.getName: os.path.splitext(os.path.basename(path))[0];
on a null path os.path.basename(None) raises TypeError. -/
def getNameF (f : MFile) : Except PyErr PyStr :=
  match f.path with
  | none => .error .typeError
  | some p => .ok p.stem

/-- Model of File.getExt: os.path.splitext(path)[1]; TypeError on a
null path. -/
def getExtF (f : MFile) : Except PyErr PyStr :=
  match f.path with
  | none => .error .typeError
  | some p => .ok p.ext

/-- Model of File.getDir: os.path.dirname(path); TypeError on a null
path. -/
def getDirF (f : MFile) : Except PyErr (List PyStr) :=
  match f.path with
  | none => .error .typeError
  | some p => .ok p.dir

/-- Model of Directory.getPath: returns the stored attribute
unconditionally (total, wrapped for uniformity). -/
def getPathD (d : MDir) : Except PyErr (Option (List PyStr)) := .ok d.path

/-- Model of Directory.getName: os.path.basename(path); TypeError on a
null path. -/
def getNameD (d : MDir) : Except PyErr PyStr :=
  match d.path with
  | none => .error .typeError
  | some p => .ok (p.getLastD [])

/-- Model of File.getDatetime in the default mtime mode without
fromIndex: os.path.getmtime, which raises TypeError on a null path and
FileNotFoundError on a missing file. -/
def getDatetimeM (fs : FS) (f : MFile) : Except PyErr Int :=
  match f.path with
  | none => .error .typeError
  | some p =>
    match fget fs p with
    | none => .error .fileNotFound
    | some d => .ok d.mtime

/-- Model of File.getDatetime with fromIndex true: parses the name with
the pref-and-date pattern in lenient mode and reads the datets key.
A failed match raises ParserError(0) (lenient mode does not cover the
match itself) and a missing datets key raises KeyError; neither is
caught inside getDatetime. -/
def getDatetimeIdx (f : MFile) : Except PyErr Int :=
  match f.path with
  | none => .error .typeError
  | some p =>
    match parsePrefDate p.stem true with
    | .error e => .error e
    | .ok r =>
      match r.datets with
      | none => .error .keyError
      | some ts => .ok ts

/-- Model of File.getSize: returns the size when the file exists and
raises FileNotFoundError otherwise (a null path makes exists() false,
so it also raises FileNotFoundError). -/
def getSizeF (fs : FS) (f : MFile) : Except PyErr Nat :=
  match f.path with
  | none => .error .fileNotFound
  | some p =>
    match fget fs p with
    | none => .error .fileNotFound
    | some d => .ok d.size

/-- Model of File.getMediaType: the stored attribute when set,
otherwise the media type parsed from the index prefix of the name with
the pref-only pattern in lenient mode; a missing mediatype key
(KeyError) yields None, while a failed match raises ParserError(0),
which getMediaType does not catch.  A null path raises TypeError from
getName. -/
def getMediaTypeF (f : MFile) : Except PyErr (Option PyStr) :=
  match f.mediaType with
  | some t => .ok (some t)
  | none =>
    match f.path with
    | none => .error .typeError
    | some p =>
      match parsePrefOnly p.stem true with
      | .error e => .error e
      | .ok r => .ok r.mediatype

/-- Model of File.setName: renames within the same directory keeping
the extension; raises FileExistsError when a file already exists at the
new path (including renaming to the current name), and otherwise
performs os.rename and updates the path attribute. -/
def setNameF (fs : FS) (f : MFile) (name : PyStr) : FS × MFile × Except PyErr Unit :=
  match f.path with
  | none => (fs, f, .error .typeError)
  | some p =>
    let np : FilePath := ⟨p.dir, name, p.ext⟩
    if (fget fs np).isSome then (fs, f, .error .fileExists)
    else
      match fget fs p with
      | none => (fs, f, .error .fileNotFound)
      | some d => (⟨fsetL (fdelL fs.files p) np d, fs.dirs⟩, ⟨some np, f.mediaType⟩, .ok ())

/-- Model of File.setDatetime with fromIndex true in the default mode
am: parses the name with the pref-and-date pattern in lenient mode; a
ParserError or a missing datets key (KeyError) is translated to
ValueError, then os.utime writes the timestamp to both the access and
modification times (FileNotFoundError on a missing file, TypeError on
a null path from getName). -/
def setDatetimeIdx (fs : FS) (f : MFile) : FS × Except PyErr Unit :=
  match f.path with
  | none => (fs, .error .typeError)
  | some p =>
    match parsePrefDate p.stem true with
    | .error _ => (fs, .error .valueError)
    | .ok r =>
      match r.datets with
      | none => (fs, .error .valueError)
      | some ts =>
        match fget fs p with
        | none => (fs, .error .fileNotFound)
        | some d => (⟨fsetL fs.files p ⟨d.content, d.size, ts, ts⟩, fs.dirs⟩, .ok ())

/-- Model of File.unlink: sets the path attribute to None with no
filesystem effect. -/
def unlinkF (f : MFile) : MFile := ⟨none, f.mediaType⟩

/-- Model of File.copyTo.  Creates the destination directory when
missing, then scans the files of the destination directory and raises
FileExistsError when some existing file has content identical to the
source while strict is set, or sits exactly at the destination path.
The buffered copy writes the source content to the destination with
fresh timestamps (the wall-clock instant tNow); with preserveDate,
shutil.copystat then copies the source timestamps over.  Returns a new
File bound to the destination with the same media type; the receiver
is never reassigned.  A missing source raises FileNotFoundError (from
filecmp.cmp or os.path.getsize), a null path TypeError. -/
def copyToF (fs : FS) (tNow : Int) (f : MFile) (dest : FilePath)
    (preserveDate strict : Bool) : FS × Except PyErr MFile :=
  match f.path with
  | none => (fs, .error .typeError)
  | some src =>
    let fs1 := ensureDir fs dest.dir
    match fget fs1 src with
    | none => (fs1, .error .fileNotFound)
    | some sd =>
      if ∃ e ∈ filesInDir fs1 dest.dir, (e.2.content = sd.content ∧ strict = true) ∨ e.1 = dest
      then (fs1, .error .fileExists)
      else
        let fs2 : FS := ⟨fsetL fs1.files dest ⟨sd.content, sd.size, tNow, tNow⟩, fs1.dirs⟩
        let fs3 : FS := if preserveDate then ⟨fsetL fs2.files dest sd, fs2.dirs⟩ else fs2
        (fs3, .ok ⟨some dest, f.mediaType⟩)

/-- Model of File.moveTo.  Same directory creation and collision scan
as copyTo, then shutil.move (a rename preserving content and
timestamps) and an in-place update of the path attribute; no new File
is created and None is returned. -/
def moveToF (fs : FS) (f : MFile) (dest : FilePath) (strict : Bool) :
    FS × MFile × Except PyErr Unit :=
  match f.path with
  | none => (fs, f, .error .typeError)
  | some src =>
    let fs1 := ensureDir fs dest.dir
    match fget fs1 src with
    | none => (fs1, f, .error .fileNotFound)
    | some sd =>
      if ∃ e ∈ filesInDir fs1 dest.dir, (e.2.content = sd.content ∧ strict = true) ∨ e.1 = dest
      then (fs1, f, .error .fileExists)
      else (⟨fsetL (fdelL fs1.files src) dest sd, fs1.dirs⟩, ⟨some dest, f.mediaType⟩, .ok ())

/-- Model of File.delete: raises FileNotFoundError when the file does
not exist (including a null path), otherwise removes it and nulls the
path attribute via unlink. -/
def deleteF (fs : FS) (f : MFile) : FS × MFile × Except PyErr Unit :=
  match f.path with
  | none => (fs, f, .error .fileNotFound)
  | some p =>
    match fget fs p with
    | none => (fs, f, .error .fileNotFound)
    | some _ => (⟨fdelL fs.files p, fs.dirs⟩, ⟨none, f.mediaType⟩, .ok ())

/-- Model of File.setIndex.  When the current name parses as a valid
index, force false raises FileIndexingError (already indexed) and
force true only calls setDatetime(fromIndex=True) -- control then
leaves the try block, so no renaming happens.  When parsing raises
ParserError, the prefix is derived from the media type, the date from
the mtime and the suffix from the size, genIndex builds the index and
setName renames; in that block a ValueError (from getPrefix on an
unknown or None media type) becomes FileIndexingError (could not
format) and a FileExistsError from setName becomes FileIndexingError
(same index exists), while every other exception -- in particular the
ParserError genIndex re-raises from its self-validation -- propagates
unwrapped. -/
def setIndexF (fs : FS) (f : MFile) (force : Bool) : FS × MFile × Except PyErr Unit :=
  match f.path with
  | none => (fs, f, .error .typeError)
  | some p =>
    match parseFull p.stem false with
    | .ok _ =>
      if force = false then (fs, f, .error (.fileIndexingError .alreadyIndexed))
      else
        let r := setDatetimeIdx fs f
        (r.1, f, r.2)
    | .error _ =>
      match getMediaTypeF f with
      | .error e => (fs, f, .error e)
      | .ok mt =>
        match getPrefix mt with
        | .error .valueError => (fs, f, .error (.fileIndexingError .couldNotFormat))
        | .error e => (fs, f, .error e)
        | .ok pfx =>
          match getDatetimeM fs f with
          | .error e => (fs, f, .error e)
          | .ok ts =>
            match getSizeF fs f with
            | .error e => (fs, f, .error e)
            | .ok sz =>
              match genIndex pfx ts (sz : Int) with
              | .error .valueError => (fs, f, .error (.fileIndexingError .couldNotFormat))
              | .error e => (fs, f, .error e)
              | .ok idx =>
                match setNameF fs f idx with
                | (fs1, f1, .ok ()) => (fs1, f1, .ok ())
                | (fs1, f1, .error .fileExists) =>
                  (fs1, f1, .error (.fileIndexingError .sameIndexExists))
                | (fs1, f1, .error e) => (fs1, f1, .error e)

/-- Model of Directory.getFiles in the default recursive mode: every
file whose directory lies at or below the directory path, wrapped as a
File inheriting the media type of the directory; raises
NotADirectoryError when the directory does not exist (including a null
path).  The enumeration order of os.walk is implementation defined;
the model fixes it to the order of the filesystem list. -/
def getFilesD (fs : FS) (d : MDir) : Except PyErr (List MFile) :=
  match d.path with
  | none => .error .notADirectory
  | some dp =>
    if dp ∈ fs.dirs then
      .ok ((fs.files.filter (fun e => dp.isPrefixOf e.1.dir)).map
        (fun e => ⟨some e.1, d.mediaType⟩))
    else .error .notADirectory

/-- Outcome of the for-loop in Directory.checkIntegrity: the loop can
complete with the issues collected so far, return True early after a
successful repair plus recursive re-check, or be aborted by an
uncaught exception. -/
inductive LoopRes where
  | done (issues : List (FilePath × IssueKind)) (fs : FS)
  | earlyTrue (fs : FS)
  | exn (e : PyErr) (fs : FS)

/-- The for-loop body of Directory.checkIntegrity over the snapshot of
files taken at loop entry.  The recursive self.checkIntegrity(fix=True)
call is passed in as recur.  For each file: a name that parses as a
valid index leads to the datetime comparison, whose mismatch raises a
ValueError caught by the surrounding handler (collect the issue, or
under fix resync the datetime and recurse); a ParserError from parsing
leads, under fix, to a datetime resync followed by setIndex and a
recursive re-check, where only a ValueError is caught as a collected
issue -- a FileIndexingError from setIndex or any other exception
aborts the whole loop -- and, without fix, to an invalid-index issue.
A recursive call that returns True makes the loop return True at once,
skipping the remaining files of this level. -/
def ciLoop (recur : FS → FS × Except PyErr Bool) (fix : Bool) :
    List MFile → FS → List (FilePath × IssueKind) → LoopRes
  | [], fs, issues => .done issues.reverse fs
  | f :: rest, fs, issues =>
    match f.path with
    | none => .exn .typeError fs
    | some p =>
      match parseFull p.stem false with
      | .ok _ =>
        match getDatetimeM fs f with
        | .error e => .exn e fs
        | .ok dt1 =>
          match getDatetimeIdx f with
          | .error e => .exn e fs
          | .ok dt2 =>
            if dt1 ≠ dt2 then
              if fix then
                match setDatetimeIdx fs f with
                | (fs1, .ok ()) =>
                  match recur fs1 with
                  | (fs2, .ok true) => .earlyTrue fs2
                  | (fs2, .ok false) => ciLoop recur fix rest fs2 issues
                  | (fs2, .error .valueError) =>
                    ciLoop recur fix rest fs2 ((p, .indexNotSet) :: issues)
                  | (fs2, .error e) => .exn e fs2
                | (fs1, .error .valueError) =>
                  ciLoop recur fix rest fs1 ((p, .indexNotSet) :: issues)
                | (fs1, .error e) => .exn e fs1
              else ciLoop recur fix rest fs ((p, .wrongDatetime) :: issues)
            else ciLoop recur fix rest fs issues
      | .error _ =>
        if fix then
          match setDatetimeIdx fs f with
          | (fs1, .ok ()) =>
            match setIndexF fs1 f false with
            | (fs2, _, .ok ()) =>
              match recur fs2 with
              | (fs3, .ok true) => .earlyTrue fs3
              | (fs3, .ok false) => ciLoop recur fix rest fs3 issues
              | (fs3, .error .valueError) =>
                ciLoop recur fix rest fs3 ((p, .indexNotSet) :: issues)
              | (fs3, .error e) => .exn e fs3
            | (fs2, _, .error .valueError) =>
              ciLoop recur fix rest fs2 ((p, .indexNotSet) :: issues)
            | (fs2, _, .error e) => .exn e fs2
          | (fs1, .error .valueError) =>
            ciLoop recur fix rest fs1 ((p, .indexNotSet) :: issues)
          | (fs1, .error e) => .exn e fs1
        else ciLoop recur fix rest fs ((p, .invalidIndex) :: issues)

/-- Model of Directory.checkIntegrity.  Enumerates the files once,
runs the loop, returns True when no issue was collected and raises
DirectoryIntegrityError with the collected issues otherwise.  The
recursion of the source (a full re-check after each successful repair)
is bounded by a fuel argument; exhausted fuel is reported as the
distinguished error fuelOut, which the source, being unbounded, never
produces. -/
def checkIntegrityD : Nat → FS → MDir → Bool → FS × Except PyErr Bool
  | 0, fs, _, _ => (fs, .error .fuelOut)
  | fuel + 1, fs, d, fix =>
    match getFilesD fs d with
    | .error e => (fs, .error e)
    | .ok files =>
      match ciLoop (fun fs1 => checkIntegrityD fuel fs1 d true) fix files fs [] with
      | .done [] fs1 => (fs1, .ok true)
      | .done issues fs1 => (fs1, .error (.directoryIntegrityError issues))
      | .earlyTrue fs1 => (fs1, .ok true)
      | .exn e fs1 => (fs1, .error e)

/-- Model of fdmgm.importFile without an organizational method
(organizeBy None), so the destination directory is the root itself,
created when missing.  In copy mode: copyTo under the current name,
then setIndex when indexing is requested; a FileIndexingError triggers
the rollback newf.delete() and becomes FileImportingError, a
FileExistsError from copyTo becomes FileImportingError, and any other
exception -- in particular a ParserError escaping setIndex -- propagates
with NO rollback.  In move mode: moveTo, then setIndex when indexing is
requested; a FileIndexingError triggers the rollback move back to the
old path and becomes FileImportingError (an exception raised by the
rollback itself propagates instead), a FileExistsError from moveTo
becomes FileImportingError, and any other exception propagates with no
rollback.  The returned MFile component is the source handle as the
call leaves it (mutated by move mode), and the Except carries the
imported file on success. -/
def importFileF (fs : FS) (tNow : Int) (src : MFile) (dstRoot : List PyStr)
    (copy indexing : Bool) : FS × MFile × Except PyErr MFile :=
  let fs1 := ensureDir fs dstRoot
  match src.path with
  | none => (fs1, src, .error .typeError)
  | some sp =>
    let dest : FilePath := ⟨dstRoot, sp.stem, sp.ext⟩
    if copy then
      match copyToF fs1 tNow src dest true true with
      | (fs2, .error .fileExists) => (fs2, src, .error (.fileImportingError .fileAlreadyExists))
      | (fs2, .error e) => (fs2, src, .error e)
      | (fs2, .ok newf) =>
        if indexing then
          match setIndexF fs2 newf false with
          | (fs3, newf1, .ok ()) => (fs3, src, .ok newf1)
          | (fs3, newf1, .error (.fileIndexingError m)) =>
            match deleteF fs3 newf1 with
            | (fs4, _, .ok ()) => (fs4, src, .error (.fileImportingError m))
            | (fs4, _, .error e) => (fs4, src, .error e)
          | (fs3, _, .error e) => (fs3, src, .error e)
        else (fs2, src, .ok newf)
    else
      match moveToF fs1 src dest true with
      | (fs2, src1, .error .fileExists) =>
        (fs2, src1, .error (.fileImportingError .fileAlreadyExists))
      | (fs2, src1, .error e) => (fs2, src1, .error e)
      | (fs2, src1, .ok ()) =>
        if indexing then
          match setIndexF fs2 src1 false with
          | (fs3, src2, .ok ()) => (fs3, src2, .ok src2)
          | (fs3, src2, .error (.fileIndexingError m)) =>
            match moveToF fs3 src2 sp true with
            | (fs4, src3, .ok ()) => (fs4, src3, .error (.fileImportingError m))
            | (fs4, src3, .error e) => (fs4, src3, .error e)
          | (fs3, src2, .error e) => (fs3, src2, .error e)
        else (fs2, src1, .ok src1)

/-- An unregistered four-letter prefix, from the spec scenario. -/
def sZZZZ : PyStr := "ZZZZ".toList

/-- A valid index string (the one used by the repository tests). -/
def sValidIdx : PyStr := "MVDC2010080213445412345".toList

/-- A string of the index shape whose prefix is not registered. -/
def sBadPref : PyStr := "BADX2010080213445412345".toList

/-- A string of the index shape whose date has month 13. -/
def sBadDate : PyStr := "MVDC2010130213445412345".toList

/-- A structurally invalid index candidate (no leading letter). -/
def sHash : PyStr := "####".toList

/-- The file extension used in the concrete scenarios. -/
def sDat : PyStr := ".dat".toList

/-- A source directory used in the concrete scenarios. -/
def dirSrc : List PyStr := ["srcdir".toList]

/-- An archive directory used in the concrete scenarios. -/
def dirArch : List PyStr := ["arch".toList]

/-- A quarantine directory used in the concrete scenarios. -/
def dirQuar : List PyStr := ["quarantine".toList]

/-- A plain unindexed file name used in the concrete scenarios. -/
def sMedia1 : PyStr := "media1".toList

/-- Path of a file carrying the valid index as its name. -/
def pIndexed : FilePath := ⟨dirArch, sValidIdx, sDat⟩

/-- Filesystem with a single already-indexed file (used for the
setIndex scenarios). -/
def fsIndexed : FS := ⟨[(pIndexed, ⟨7, 2048, 1000, 1000⟩)], [dirArch]⟩

/-- Handle on the already-indexed file, media type footage. -/
def fIndexed : MFile := ⟨some pIndexed, some sFootage⟩

/-- Path of a source file whose mtime encodes a year above 9999. -/
def pHugeMtime : FilePath := ⟨dirSrc, sMedia1, sDat⟩

/-- Filesystem with a single source file whose mtime is the first epoch
second of year 10000 (datetime.fromtimestamp cannot represent it). -/
def fsHugeMtime : FS := ⟨[(pHugeMtime, ⟨3, 2048, 253402300800, 253402300800⟩)], [dirSrc]⟩

/-- Handle on the huge-mtime source file, media type footage. -/
def fHugeMtime : MFile := ⟨some pHugeMtime, some sFootage⟩

/-- Destination path the import of the huge-mtime file copies to. -/
def pHugeDest : FilePath := ⟨dirQuar, sMedia1, sDat⟩

/-- Path of a file with an unregistered index prefix, for the
checkIntegrity scenario. -/
def pBadPref : FilePath := ⟨dirArch, sBadPref, sDat⟩

/-- Filesystem with the unregistered-prefix file. -/
def fsBadPref : FS := ⟨[(pBadPref, ⟨9, 512, 1000, 1000⟩)], [dirArch]⟩

/-- Directory handle on the archive directory with no media type. -/
def dArch : MDir := ⟨some dirArch, none⟩

/-- The name genIndex produces for a footage file of size 2048 at epoch
second zero, used as the colliding name in the import scenario. -/
def sIdxZero : PyStr := "MVDC1970010100000002048".toList

/-- Source filesystem of the rollback import scenario: the source file
(content 3, size 2048, mtime 0) plus a different file already sitting
in quarantine under exactly the index the import will generate. -/
def fsCollide : FS :=
  ⟨[(⟨dirSrc, sMedia1, sDat⟩, ⟨3, 2048, 0, 0⟩),
    (⟨dirQuar, sIdxZero, sDat⟩, ⟨4, 1024, 77, 77⟩)], [dirSrc, dirQuar]⟩

/-- Handle on the source file of the rollback import scenario. -/
def fCollide : MFile := ⟨some (⟨dirSrc, sMedia1, sDat⟩ : FilePath), some sFootage⟩

/-- Small filesystem for the copy and move witness: one source file and
an empty archive directory. -/
def fsTiny : FS := ⟨[(⟨dirSrc, sMedia1, sDat⟩, ⟨5, 100, 50, 60⟩)], [dirSrc, dirArch]⟩

/-- Handle on the tiny-scenario source file. -/
def fTiny : MFile := ⟨some (⟨dirSrc, sMedia1, sDat⟩ : FilePath), some sAudio⟩

/-- Destination path of the tiny copy and move witness. -/
def pTinyDest : FilePath := ⟨dirArch, sMedia1, sDat⟩

theorem digitCh_toNat {k : Nat} (h : k < 10) : (digitCh k).toNat = 48 + k := by
  interval_cases k <;> decide

theorem isDigitCh_digitCh {k : Nat} (h : k < 10) : isDigitCh (digitCh k) = true := by
  simp [isDigitCh, digitCh_toNat h]
  omega

theorem digitVal_digitCh {k : Nat} (h : k < 10) : digitVal (digitCh k) = k := by
  simp [digitVal, digitCh_toNat h]

theorem not_alpha_of_digit {c : Char} (h : isDigitCh c = true) : isAlphaCh c = false := by
  simp [isDigitCh] at h
  simp [isAlphaCh]
  omega

theorem natDigitsAux_irrel (n : Nat) : ∀ f, n < f → natDigitsAux f n = natDigits n := by
  induction n using Nat.strong_induction_on with
  | _ n ih =>
    intro f hf
    match f, hf with
    | f + 1, hf =>
      show natDigitsAux (f + 1) n = natDigitsAux (n + 1) n
      by_cases h10 : n < 10
      · simp [natDigitsAux, h10]
      · have hdiv : n / 10 < n := Nat.div_lt_self (by omega) (by omega)
        simp only [natDigitsAux, if_neg h10]
        rw [ih (n / 10) hdiv f (by omega), ih (n / 10) hdiv n hdiv]

theorem natDigits_rec (n : Nat) :
    natDigits n = if n < 10 then [digitCh n] else natDigits (n / 10) ++ [digitCh (n % 10)] := by
  show natDigitsAux (n + 1) n = _
  by_cases h10 : n < 10
  · simp [natDigitsAux, h10]
  · have hdiv : n / 10 < n := Nat.div_lt_self (by omega) (by omega)
    simp only [natDigitsAux, if_neg h10]
    rw [natDigitsAux_irrel (n / 10) n hdiv]

theorem natDigits_ne_nil (n : Nat) : natDigits n ≠ [] := by
  rw [natDigits_rec]
  split <;> simp

theorem natDigits_all_digits (n : Nat) : ∀ c ∈ natDigits n, isDigitCh c = true := by
  induction n using Nat.strong_induction_on with
  | _ n ih =>
    rw [natDigits_rec]
    by_cases h10 : n < 10
    · simp [h10]
      exact isDigitCh_digitCh h10
    · have hdiv : n / 10 < n := Nat.div_lt_self (by omega) (by omega)
      simp only [if_neg h10]
      intro c hc
      rcases List.mem_append.mp hc with h | h
      · exact ih (n / 10) hdiv c h
      · simp at h
        subst h
        exact isDigitCh_digitCh (Nat.mod_lt n (by omega))

theorem digitsToNat_append_last (l : List Char) (c : Char) :
    digitsToNat (l ++ [c]) = 10 * digitsToNat l + digitVal c := by
  simp [digitsToNat, List.foldl_append]
  ring

theorem digitsToNat_natDigits (n : Nat) : digitsToNat (natDigits n) = n := by
  induction n using Nat.strong_induction_on with
  | _ n ih =>
    rw [natDigits_rec]
    by_cases h10 : n < 10
    · simp [h10, digitsToNat, digitVal_digitCh h10]
    · have hdiv : n / 10 < n := Nat.div_lt_self (by omega) (by omega)
      simp only [if_neg h10]
      rw [digitsToNat_append_last, ih (n / 10) hdiv, digitVal_digitCh (Nat.mod_lt n (by omega))]
      omega

theorem digitsToNat_cons_zero (l : List Char) : digitsToNat ('0' :: l) = digitsToNat l := by
  have h0 : digitVal '0' = 0 := by decide
  simp [digitsToNat, h0]

theorem digitsToNat_zeros (z : Nat) (l : List Char) :
    digitsToNat (List.replicate z '0' ++ l) = digitsToNat l := by
  induction z with
  | zero => simp
  | succ z ih =>
    rw [List.replicate_succ, List.cons_append, digitsToNat_cons_zero, ih]

theorem natDigits_length_le (k n : Nat) (h : n < 10 ^ (k + 1)) :
    (natDigits n).length ≤ k + 1 := by
  induction k generalizing n with
  | zero =>
    rw [natDigits_rec]
    simp at h
    simp [h]
  | succ k ih =>
    rw [natDigits_rec]
    by_cases h10 : n < 10
    · simp [h10]
    · simp only [if_neg h10, List.length_append, List.length_cons, List.length_nil]
      have : n / 10 < 10 ^ (k + 1) := by
        rw [Nat.div_lt_iff_lt_mul (by omega)]
        calc n < 10 ^ (k + 2) := h
        _ = 10 ^ (k + 1) * 10 := by ring
      have := ih (n / 10) this
      omega

theorem natDigits_length_ge (k n : Nat) (h : 10 ^ k ≤ n) :
    k + 1 ≤ (natDigits n).length := by
  induction k generalizing n with
  | zero =>
    have := natDigits_ne_nil n
    have := List.length_pos.mpr this
    omega
  | succ k ih =>
    rw [natDigits_rec]
    have h10 : ¬ n < 10 := by
      have : 10 ≤ 10 ^ (k + 1) := by
        calc 10 = 10 ^ 1 := by ring
        _ ≤ 10 ^ (k + 1) := Nat.pow_le_pow_right (by omega) (by omega)
      omega
    simp only [if_neg h10, List.length_append, List.length_cons, List.length_nil]
    have : 10 ^ k ≤ n / 10 := by
      rw [Nat.le_div_iff_mul_le (by omega)]
      calc 10 ^ k * 10 = 10 ^ (k + 1) := by ring
      _ ≤ n := h
    have := ih (n / 10) this
    omega

theorem zeroFillAux_eq (k : Nat) (s : PyStr) :
    zeroFillAux k s = List.replicate k '0' ++ s := by
  induction k generalizing s with
  | zero => simp [zeroFillAux]
  | succ k ih =>
    rw [zeroFillAux, ih ('0' :: s), List.replicate_succ' _ _]
    simp

theorem zeroFill_eq (s : PyStr) (L : Nat) :
    zeroFill s L = List.replicate (L - s.length) '0' ++ s := by
  rw [zeroFill, zeroFillAux_eq]

theorem numberFormatToString_nat (n L : Nat) (strict : Bool) (hL : 1 ≤ L) :
    numberFormatToString (n : Int) (L : Int) strict =
      if 10 ^ L ≤ n then
        if strict then .error .valueError
        else .ok (some ((natDigits n).drop ((natDigits n).length - L)))
      else .ok (some (List.replicate (L - (natDigits n).length) '0' ++ natDigits n)) := by
  have h1 : ¬ ((L : Int) < 1) := by omega
  have h2 : ¬ ((n : Int) < 0) := by omega
  unfold numberFormatToString
  rw [if_neg h1, if_neg h2]
  simp only [Int.toNat_natCast]
  rw [zeroFill_eq]

/-- C4: for every non-negative n and length L at least one,
numberFormatToString returns a string of exactly L characters; with
fewer decimal digits than L the result is the decimal representation
left-padded with zeros, with more digits than L the non-strict mode
keeps exactly the last L digits of the decimal representation while
the strict mode fails with ValueError (the OutOfRange failure of the
spec). -/
theorem numberFormatToString_spec (n L : Nat) (strict : Bool) (hL : 1 ≤ L) :
    (n < 10 ^ L →
      numberFormatToString (n : Int) (L : Int) strict
          = .ok (some (List.replicate (L - (natDigits n).length) '0' ++ natDigits n))
        ∧ (List.replicate (L - (natDigits n).length) '0' ++ natDigits n).length = L)
    ∧ (10 ^ L ≤ n →
      numberFormatToString (n : Int) (L : Int) false
          = .ok (some ((natDigits n).drop ((natDigits n).length - L)))
        ∧ ((natDigits n).drop ((natDigits n).length - L)).length = L
        ∧ numberFormatToString (n : Int) (L : Int) true = .error .valueError) := by
  constructor
  · intro hlt
    have hlen : (natDigits n).length ≤ L := by
      have : L = (L - 1) + 1 := by omega
      rw [this]
      exact natDigits_length_le (L - 1) n (by rw [← this]; exact hlt)
    refine ⟨?_, ?_⟩
    · rw [numberFormatToString_nat n L strict hL, if_neg (by omega)]
    · simp
      omega
  · intro hge
    have hlen : L + 1 ≤ (natDigits n).length := natDigits_length_ge L n hge
    refine ⟨?_, ?_, ?_⟩
    · rw [numberFormatToString_nat n L false hL, if_pos hge]
      simp
    · simp
      omega
    · rw [numberFormatToString_nat n L true hL, if_pos hge]
      simp

/-- C4 witness: both branches of the specification at concrete inputs
(7 has fewer digits than 3, 91111 more digits than 3). -/
theorem numberFormatToString_spec_witness :
    numberFormatToString ((7 : Nat) : Int) ((3 : Nat) : Int) true
        = .ok (some (List.replicate (3 - (natDigits 7).length) '0' ++ natDigits 7))
      ∧ numberFormatToString ((91111 : Nat) : Int) ((3 : Nat) : Int) false
        = .ok (some ((natDigits 91111).drop ((natDigits 91111).length - 3))) :=
  ⟨((numberFormatToString_spec 7 3 true (by decide)).1 (by decide)).1,
   ((numberFormatToString_spec 91111 3 false (by decide)).2 (by decide)).1⟩

/-- C10: for every integer n (negative included) and every length
below one, in both modes, numberFormatToString returns the sentinel
None without raising: the length check precedes the negativity
check. -/
theorem numberFormatToString_len_lt_one (n L : Int) (strict : Bool) (hL : L < 1) :
    numberFormatToString n L strict = .ok none := by
  unfold numberFormatToString
  rw [if_pos hL]

/-- C10 witness: a negative number with length zero yields None in both
modes. -/
theorem numberFormatToString_len_lt_one_witness :
    numberFormatToString (-5) 0 true = .ok none
      ∧ numberFormatToString (-5) 0 false = .ok none :=
  ⟨numberFormatToString_len_lt_one (-5) 0 true (by decide),
   numberFormatToString_len_lt_one (-5) 0 false (by decide)⟩

theorem suffixFormat_ok (S : Nat) :
    ∃ u, numberFormatToString (S : Int) 5 false = .ok (some u)
      ∧ u.length = 5 ∧ ∀ c ∈ u, isDigitCh c = true := by
  have hcast : ((5 : Nat) : Int) = (5 : Int) := by norm_cast
  have h := numberFormatToString_spec S 5 false (by omega)
  by_cases hlt : S < 10 ^ 5
  · refine ⟨_, ?_, (h.1 hlt).2, ?_⟩
    · rw [← hcast]
      exact (h.1 hlt).1
    · intro c hc
      rcases List.mem_append.mp hc with hm | hm
      · rw [List.eq_of_mem_replicate hm]
        decide
      · exact natDigits_all_digits S c hm
  · refine ⟨_, ?_, (h.2 (by omega)).2.1, ?_⟩
    · rw [← hcast]
      exact (h.2 (by omega)).1
    · intro c hc
      exact natDigits_all_digits S c (List.drop_subset _ _ hc)

theorem isLeap_iff (y : Nat) : isLeap y = true ↔ (y % 4 = 0 ∧ ¬ y % 100 = 0) ∨ y % 400 = 0 := by
  simp [isLeap]

theorem daysInYear_ge (y : Nat) : 365 ≤ daysInYear y := by
  unfold daysInYear
  split <;> omega

theorem daysInYear_le (y : Nat) : daysInYear y ≤ 366 := by
  unfold daysInYear
  split <;> omega

theorem daysFrom0_succ (y : Nat) : daysFrom0 (y + 1) = daysFrom0 y + daysInYear y := by
  unfold daysFrom0 daysInYear leapCount
  by_cases hL : isLeap y = true
  · rw [if_pos hL]
    rw [isLeap_iff] at hL
    omega
  · rw [if_neg hL]
    have : ¬ ((y % 4 = 0 ∧ ¬ y % 100 = 0) ∨ y % 400 = 0) := fun hc => hL ((isLeap_iff y).mpr hc)
    omega

theorem daysFrom0_mono {a b : Nat} (h : a ≤ b) : daysFrom0 a ≤ daysFrom0 b := by
  induction b with
  | zero =>
    have ha : a = 0 := by omega
    simp [ha]
  | succ b ih =>
    rcases Nat.lt_or_ge a (b + 1) with hlt | hge
    · have := ih (by omega)
      rw [daysFrom0_succ]
      omega
    · have ha : a = b + 1 := by omega
      simp [ha]

theorem dty_self (a : Nat) : daysToYearFrom a a = 0 := by
  unfold daysToYearFrom
  omega

theorem dty_succ {a b : Nat} (h : a ≤ b) :
    daysToYearFrom a (b + 1) = daysToYearFrom a b + daysInYear b := by
  unfold daysToYearFrom
  have h1 := daysFrom0_mono h
  have h2 := daysFrom0_succ b
  omega

theorem dty_add {a b c : Nat} (hab : a ≤ b) (hbc : b ≤ c) :
    daysToYearFrom a b + daysToYearFrom b c = daysToYearFrom a c := by
  unfold daysToYearFrom
  have h1 := daysFrom0_mono hab
  have h2 := daysFrom0_mono hbc
  omega

theorem dty_mono {a b c : Nat} (h : b ≤ c) : daysToYearFrom a b ≤ daysToYearFrom a c := by
  unfold daysToYearFrom
  have := daysFrom0_mono h
  omega

theorem yearSplit_spec :
    ∀ fuel y n, n < 365 * fuel →
      (yearSplit fuel y n).2 < daysInYear (yearSplit fuel y n).1
        ∧ y ≤ (yearSplit fuel y n).1
        ∧ daysToYearFrom y (yearSplit fuel y n).1 + (yearSplit fuel y n).2 = n := by
  intro fuel
  induction fuel with
  | zero => intro y n h; omega
  | succ fuel ih =>
    intro y n h
    by_cases hlt : n < daysInYear y
    · simp only [yearSplit, if_pos hlt]
      exact ⟨hlt, Nat.le_refl y, by rw [dty_self]; omega⟩
    · simp only [yearSplit, if_neg hlt]
      have hge := daysInYear_ge y
      have hrec := ih (y + 1) (n - daysInYear y) (by omega)
      refine ⟨hrec.1, by omega, ?_⟩
      have hstep : daysToYearFrom y (y + 1) = daysInYear y := by
        have := dty_succ (Nat.le_refl y)
        rw [dty_self] at this
        omega
      have := dty_add (show y ≤ y + 1 by omega) hrec.2.1
      omega

theorem monthSplit_spec :
    ∀ (L : List Nat) n, n < L.sum →
      (monthSplit L n).1 < L.length
        ∧ (L.take (monthSplit L n).1).sum + (monthSplit L n).2 = n
        ∧ (monthSplit L n).2 < L.getD (monthSplit L n).1 0 := by
  intro L
  induction L with
  | nil => intro n h; simp at h
  | cons ml rest ih =>
    intro n h
    by_cases hlt : n < ml
    · simp only [monthSplit, if_pos hlt]
      refine ⟨by simp, by simp, by simpa using hlt⟩
    · simp only [monthSplit, if_neg hlt]
      have hsum : rest.sum > n - ml := by
        simp [List.sum_cons] at h
        omega
      have hrec := ih (n - ml) hsum
      refine ⟨by simpa using hrec.1, ?_, by simpa using hrec.2.2⟩
      simp [List.take_cons, List.sum_cons]
      omega

theorem monthLens_sum (y : Nat) : (monthLens y).sum = daysInYear y := by
  unfold monthLens daysInYear
  split <;> simp

theorem monthLens_length (y : Nat) : (monthLens y).length = 12 := by
  unfold monthLens
  simp

theorem monthLens_le31 (y i : Nat) : (monthLens y).getD i 0 ≤ 31 := by
  unfold monthLens
  by_cases hL : isLeap y = true <;>
    simp only [hL, if_pos, if_neg, Bool.false_eq_true, not_false_iff] <;>
    rcases i with _|_|_|_|_|_|_|_|_|_|_|_|i <;> simp [List.getD]

theorem maxDays_val : maxDays = 2932897 := by decide

theorem maxTs_val : maxTs = 253402300799 := by decide

theorem fromtimestamp_spec (T : Nat) (hT : T ≤ maxTs) :
    ∃ dt : DT, fromtimestamp (T : Int) = some dt
      ∧ 1970 ≤ dt.y ∧ dt.y ≤ 9999
      ∧ 1 ≤ dt.mo ∧ dt.mo ≤ 12
      ∧ 1 ≤ dt.d ∧ dt.d ≤ (monthLens dt.y).getD (dt.mo - 1) 0
      ∧ dt.h ≤ 23 ∧ dt.mi ≤ 59 ∧ dt.s ≤ 59
      ∧ mktime dt = (T : Int) := by
  have hTv : T ≤ 253402300799 := by rw [maxTs_val] at hT; exact hT
  have h0 : ¬ ((T : Int) < 0) := by omega
  have hnd : ¬ (maxDays ≤ T / 86400) := by rw [maxDays_val]; omega
  have hys := yearSplit_spec (T / 86400 + 1) 1970 (T / 86400) (by omega)
  set ys := yearSplit (T / 86400 + 1) 1970 (T / 86400) with hysdef
  obtain ⟨hy1, hy2, hy3⟩ := hys
  have hsum : ys.2 < (monthLens ys.1).sum := by rw [monthLens_sum]; exact hy1
  have hms := monthSplit_spec (monthLens ys.1) ys.2 hsum
  set ms := monthSplit (monthLens ys.1) ys.2 with hmsdef
  obtain ⟨hm1, hm2, hm3⟩ := hms
  rw [monthLens_length] at hm1
  have hy9999 : ys.1 ≤ 9999 := by
    by_contra hcon
    have h1 : daysToYearFrom 1970 10000 ≤ daysToYearFrom 1970 ys.1 := dty_mono (by omega)
    have h2 : daysToYearFrom 1970 ys.1 ≤ T / 86400 := by omega
    have h3 : daysToYearFrom 1970 10000 = maxDays := rfl
    omega
  have hft : fromtimestamp (T : Int) = some ⟨ys.1, ms.1 + 1, ms.2 + 1,
      T % 86400 / 3600, T % 3600 / 60, T % 60⟩ := by
    simp only [fromtimestamp, Int.toNat_natCast]
    rw [if_neg h0, if_neg hnd, ← hysdef, ← hmsdef]
  refine ⟨⟨ys.1, ms.1 + 1, ms.2 + 1, T % 86400 / 3600, T % 3600 / 60, T % 60⟩, hft,
    hy2, hy9999, ?_, ?_, ?_, ?_, ?_, ?_, ?_, ?_⟩
  · show 1 ≤ ms.1 + 1
    omega
  · show ms.1 + 1 ≤ 12
    omega
  · show 1 ≤ ms.2 + 1
    omega
  · show ms.2 + 1 ≤ (monthLens ys.1).getD (ms.1 + 1 - 1) 0
    simpa using hm3
  · show T % 86400 / 3600 ≤ 23
    omega
  · show T % 3600 / 60 ≤ 59
    omega
  · show T % 60 ≤ 59
    omega
  have hAD : daysAD ys.1 (ms.1 + 1) (ms.2 + 1) = epochDays + T / 86400 := by
    unfold daysAD
    simp only [Nat.add_sub_cancel]
    have hadd := dty_add (show 1 ≤ 1970 by omega) (show 1970 ≤ ys.1 by omega)
    have hep : epochDays = daysToYearFrom 1 1970 := rfl
    omega
  show ((daysAD ys.1 (ms.1 + 1) (ms.2 + 1) : Int) - (epochDays : Int)) * 86400
      + ((T % 86400 / 3600 : Nat) : Int) * 3600 + ((T % 3600 / 60 : Nat) : Int) * 60
      + ((T % 60 : Nat) : Int) = (T : Int)
  rw [hAD]
  push_cast
  have hsplit : T % 86400 / 3600 * 3600 + T % 3600 / 60 * 60 + T % 60 = T % 86400 := by omega
  have hdm : T / 86400 * 86400 + T % 86400 = T := by omega
  omega

theorem padN_length (w n : Nat) (h : (natDigits n).length ≤ w) : (padN w n).length = w := by
  simp [padN]
  omega

theorem padN_digits (w n : Nat) : ∀ c ∈ padN w n, isDigitCh c = true := by
  intro c hc
  rcases List.mem_append.mp hc with hm | hm
  · rw [List.eq_of_mem_replicate hm]
    decide
  · exact natDigits_all_digits n c hm

theorem padN_toNat (w n : Nat) : digitsToNat (padN w n) = n := by
  rw [padN, digitsToNat_zeros, digitsToNat_natDigits]

theorem take_append_len (A R : List Char) (k : Nat) (h : A.length = k) :
    (A ++ R).take k = A := by
  rw [← h]
  exact List.take_left A R

theorem drop_append_len (A R : List Char) (k : Nat) (h : A.length = k) :
    (A ++ R).drop k = R := by
  rw [← h]
  exact List.drop_left A R

theorem natDigits_len_two (n : Nat) (h : n ≤ 99) : (natDigits n).length ≤ 2 :=
  natDigits_length_le 1 n (by omega)

theorem strptime_strftime (dt : DT)
    (h1970 : 1970 ≤ dt.y) (h9999 : dt.y ≤ 9999)
    (hmo1 : 1 ≤ dt.mo) (hmo : dt.mo ≤ 12)
    (hd1 : 1 ≤ dt.d) (hd : dt.d ≤ (monthLens dt.y).getD (dt.mo - 1) 0)
    (hh : dt.h ≤ 23) (hmi : dt.mi ≤ 59) (hs : dt.s ≤ 59) :
    (strftimeIdx dt).length = 14
      ∧ (∀ c ∈ strftimeIdx dt, isDigitCh c = true)
      ∧ strptimeIdx (strftimeIdx dt) = some dt := by
  obtain ⟨y, mo, d, h, mi, s⟩ := dt
  simp only at h1970 h9999 hmo1 hmo hd1 hd hh hmi hs
  have hd31 : d ≤ 31 := le_trans hd (monthLens_le31 y (mo - 1))
  have lenY : (padN 4 y).length = 4 :=
    padN_length 4 y (natDigits_length_le 3 y (by omega))
  have lenMo : (padN 2 mo).length = 2 := padN_length 2 mo (natDigits_len_two mo (by omega))
  have lenD : (padN 2 d).length = 2 := padN_length 2 d (natDigits_len_two d (by omega))
  have lenH : (padN 2 h).length = 2 := padN_length 2 h (natDigits_len_two h (by omega))
  have lenMi : (padN 2 mi).length = 2 := padN_length 2 mi (natDigits_len_two mi (by omega))
  have lenS : (padN 2 s).length = 2 := padN_length 2 s (natDigits_len_two s (by omega))
  have hlen : (strftimeIdx ⟨y, mo, d, h, mi, s⟩).length = 14 := by
    simp [strftimeIdx, lenY, lenMo, lenD, lenH, lenMi, lenS]
  have hdig : ∀ c ∈ strftimeIdx ⟨y, mo, d, h, mi, s⟩, isDigitCh c = true := by
    intro c hc
    simp only [strftimeIdx, List.mem_append] at hc
    rcases hc with hc | hc | hc | hc | hc | hc <;> exact padN_digits _ _ c hc
  refine ⟨hlen, hdig, ?_⟩
  unfold strptimeIdx
  rw [if_pos ⟨hlen, List.all_eq_true.mpr (fun c hc => hdig c hc)⟩]
  unfold strftimeIdx
  dsimp only
  rw [take_append_len _ _ 4 lenY, drop_append_len _ _ 4 lenY,
    take_append_len _ _ 2 lenMo, drop_append_len _ _ 2 lenMo,
    take_append_len _ _ 2 lenD, drop_append_len _ _ 2 lenD,
    take_append_len _ _ 2 lenH, drop_append_len _ _ 2 lenH,
    take_append_len _ _ 2 lenMi, drop_append_len _ _ 2 lenMi]
  rw [padN_toNat, padN_toNat, padN_toNat, padN_toNat, padN_toNat, padN_toNat]
  rw [if_pos]
  exact ⟨by omega, by omega, by omega, by omega, by omega, by omega, by omega, by omega, hd⟩

theorem takeWhile_append_stop (p : Char → Bool) :
    ∀ (A B : List Char), (∀ c ∈ A, p c = true) →
      (∀ c, B.head? = some c → p c = false) → (A ++ B).takeWhile p = A := by
  intro A
  induction A with
  | nil =>
    intro B _ hB
    cases B with
    | nil => rfl
    | cons b B' =>
      simp [List.takeWhile_cons, hB b rfl]
  | cons a A' ih =>
    intro B hA hB
    have h1 : p a = true := hA a (List.mem_cons_self a A')
    have h2 := ih B (fun c hc => hA c (List.mem_cons_of_mem a hc)) hB
    simp only [List.cons_append, List.takeWhile_cons, h1, if_true, h2]

theorem matchFull_split (P D : PyStr) (hne : P ≠ []) (hPa : ∀ c ∈ P, isAlphaCh c = true)
    (hD19 : D.length = 19) (hDd : ∀ c ∈ D, isDigitCh c = true) :
    matchFull (P ++ D) = some ⟨P, some (D.take 14), some (D.drop 14)⟩ := by
  have htw : (P ++ D).takeWhile isAlphaCh = P := by
    apply takeWhile_append_stop isAlphaCh P D hPa
    intro c hc
    have hcm : c ∈ D := by
      cases D with
      | nil => simp at hc
      | cons d D' =>
        simp at hc
        simp [hc]
    exact not_alpha_of_digit (hDd c hcm)
  have hPlen : ¬ P.length = 0 := by
    simp [List.length_eq_zero]
    exact hne
  simp only [matchFull]
  rw [htw, drop_append_len P D P.length rfl, if_neg hPlen,
    if_pos ⟨hD19, List.all_eq_true.mpr (fun c hc => hDd c hc)⟩]

/-- C2: for every registered media type and its prefix, every
second-precision timestamp representable by the datetime type and
every non-negative suffix seed, parseIndex on genIndex output succeeds,
decodes back exactly the timestamp, returns the prefix and reverse-maps
it to the registered media type. -/
theorem genIndex_parseIndex_round_trip (mt P : PyStr) (hmem : (mt, P) ∈ INDEX_PREFIX)
    (T S : Nat) (hT : T ≤ maxTs) :
    ∃ idx r, genIndex P (T : Int) (S : Int) = .ok idx
      ∧ parseFull idx false = .ok r
      ∧ r.datets = some (T : Int)
      ∧ r.pref = some P
      ∧ r.mediatype = some mt := by
  obtain ⟨dt, hft, hy1, hy2, hmo1, hmo2, hd1, hd2, hh, hmi, hs, hmk⟩ := fromtimestamp_spec T hT
  obtain ⟨hlen14, hdig14, hstp⟩ := strptime_strftime dt hy1 hy2 hmo1 hmo2 hd1 hd2 hh hmi hs
  obtain ⟨u, hu, hulen, hudig⟩ := suffixFormat_ok S
  have key : (∀ c ∈ P, isAlphaCh c = true) ∧ P ≠ []
      ∧ INDEX_PREFIX.find? (fun kv => decide (kv.2 = P)) = some (mt, P) := by
    simp only [INDEX_PREFIX, List.mem_cons, List.not_mem_nil, or_false] at hmem
    rcases hmem with h | h | h <;> simp only [Prod.mk.injEq] at h <;>
      obtain ⟨rfl, rfl⟩ := h <;> exact ⟨by decide, by decide, by decide⟩
  obtain ⟨hPa, hPne, hfind⟩ := key
  have hD19 : (strftimeIdx dt ++ u).length = 19 := by
    simp [hlen14, hulen]
  have hDd : ∀ c ∈ strftimeIdx dt ++ u, isDigitCh c = true := by
    intro c hc
    rcases List.mem_append.mp hc with hc | hc
    exacts [hdig14 c hc, hudig c hc]
  have hsplit : matchFull (P ++ (strftimeIdx dt ++ u))
      = some ⟨P, some (strftimeIdx dt), some u⟩ := by
    rw [matchFull_split P (strftimeIdx dt ++ u) hPne hPa hD19 hDd,
      take_append_len _ _ 14 hlen14, drop_append_len _ _ 14 hlen14]
  have hparse : parseFull (P ++ (strftimeIdx dt ++ u)) false
      = .ok ⟨some P, some mt, some (strftimeIdx dt), some (mktime dt), some u⟩ := by
    unfold parseFull parseIndexCore
    rw [hsplit]
    dsimp only
    rw [hfind]
    dsimp only
    rw [hstp]
  refine ⟨P ++ (strftimeIdx dt ++ u), ⟨some P, some mt, some (strftimeIdx dt),
    some (mktime dt), some u⟩, ?_, hparse, by simp [hmk], rfl, rfl⟩
  unfold genIndex
  rw [hft]
  rw [hu]
  dsimp only
  rw [hparse]

/-- C2 witness: the round trip at media type footage, timestamp zero
and suffix seed zero. -/
theorem genIndex_parseIndex_round_trip_witness :
    ∃ idx r, genIndex sMVDC ((0 : Nat) : Int) ((0 : Nat) : Int) = .ok idx
      ∧ parseFull idx false = .ok r
      ∧ r.datets = some ((0 : Nat) : Int)
      ∧ r.pref = some sMVDC
      ∧ r.mediatype = some sFootage :=
  genIndex_parseIndex_round_trip sFootage sMVDC (by decide) 0 0 (by decide)

/-- C5: genIndex fails on a negative timestamp (the spec scenario with
the registered prefix MVDC) and on every unregistered prefix (ZZZZ)
even with a valid timestamp, where it raises the ParserError(1) that
its self-validation propagates. -/
theorem genIndex_invalid_inputs :
    genIndex sMVDC (-5) 100 = .error (.parserError 1000)
      ∧ ∀ t : Int, 0 ≤ t → t ≤ (maxTs : Int) →
          genIndex sZZZZ t 100 = .error (.parserError 1) := by
  constructor
  · decide
  · intro t ht0 htm
    have hT : t = ((t.toNat : Nat) : Int) := by omega
    have hTle : t.toNat ≤ maxTs := by omega
    rw [hT]
    obtain ⟨dt, hft, hy1, hy2, hmo1, hmo2, hd1, hd2, hh, hmi, hs, hmk⟩ :=
      fromtimestamp_spec t.toNat hTle
    obtain ⟨hlen14, hdig14, hstp⟩ := strptime_strftime dt hy1 hy2 hmo1 hmo2 hd1 hd2 hh hmi hs
    obtain ⟨u, hu, hulen, hudig⟩ := suffixFormat_ok 100
    have hu100 : numberFormatToString (100 : Int) 5 false = .ok (some u) := by
      have hc : (((100 : Nat)) : Int) = (100 : Int) := by norm_cast
      rw [← hc]
      exact hu
    have hD19 : (strftimeIdx dt ++ u).length = 19 := by simp [hlen14, hulen]
    have hDd : ∀ c ∈ strftimeIdx dt ++ u, isDigitCh c = true := by
      intro c hc
      rcases List.mem_append.mp hc with hc | hc
      exacts [hdig14 c hc, hudig c hc]
    have hsplit : matchFull (sZZZZ ++ (strftimeIdx dt ++ u))
        = some ⟨sZZZZ, some (strftimeIdx dt), some u⟩ := by
      rw [matchFull_split sZZZZ (strftimeIdx dt ++ u) (by decide) (by decide) hD19 hDd,
        take_append_len _ _ 14 hlen14, drop_append_len _ _ 14 hlen14]
    have hfindZ : INDEX_PREFIX.find? (fun kv => decide (kv.2 = sZZZZ)) = none := by decide
    have hparse : parseFull (sZZZZ ++ (strftimeIdx dt ++ u)) false
        = .error (.parserError 1) := by
      unfold parseFull parseIndexCore
      rw [hsplit]
      dsimp only
      rw [hfindZ]
      rfl
    unfold genIndex
    rw [hft, hu100]
    dsimp only
    rw [hparse]

/-- C5 witness: the unregistered-prefix failure at timestamp zero. -/
theorem genIndex_invalid_inputs_witness :
    genIndex sZZZZ 0 100 = .error (.parserError 1) :=
  genIndex_invalid_inputs.2 0 (by decide) (by decide)

/-- C6 counterexample: on the structurally invalid candidate #### the
lenient mode does not return an empty result; it raises ParserError(0)
exactly as the normal mode does, because the AttributeError handler
that raises it ignores the ignoreErrors flag. -/
theorem parseIndex_lenient_mismatch_raises :
    parseFull sHash true = .error (.parserError 0) := by decide

/-- C6 amended: on structural mismatch parseIndex raises ParserError(0)
in BOTH modes (the lenient mode does not return an empty result); for
candidates that match structurally, the lenient mode omits the failing
sub-results instead of aborting: an unregistered prefix only leaves the
mediatype key absent, an undecodable date string only leaves the datets
key absent (the datestring key is still set). -/
theorem parseIndex_error_modes :
    (∀ s : PyStr, matchFull s = none → ∀ ig : Bool, parseFull s ig = .error (.parserError 0))
      ∧ (∀ (s : PyStr) (g : Groups), matchFull s = some g →
          INDEX_PREFIX.find? (fun kv => decide (kv.2 = g.pref)) = none →
          ∃ r, parseFull s true = .ok r ∧ r.pref = some g.pref ∧ r.mediatype = none)
      ∧ (∀ (s : PyStr) (g : Groups) (ds : PyStr), matchFull s = some g → g.date = some ds →
          strptimeIdx ds = none →
          ∃ r, parseFull s true = .ok r ∧ r.datestring = some ds ∧ r.datets = none) := by
  refine ⟨?_, ?_, ?_⟩
  · intro s hm ig
    unfold parseFull parseIndexCore
    rw [hm]
  · intro s g hm hfind
    unfold parseFull parseIndexCore
    rw [hm]
    dsimp only
    rw [hfind]
    cases hd : g.date with
    | none => exact ⟨⟨some g.pref, none, none, none, g.suff⟩, rfl, rfl, rfl⟩
    | some ds =>
      cases hstp : strptimeIdx ds with
      | none =>
        refine ⟨⟨some g.pref, none, some ds, none, g.suff⟩, ?_, rfl, rfl⟩
        dsimp only
        rw [hstp]
        rfl
      | some dtv =>
        refine ⟨⟨some g.pref, none, some ds, some (mktime dtv), g.suff⟩, ?_, rfl, rfl⟩
        dsimp only
        rw [hstp]
        rfl
  · intro s g ds hm hd hstp
    unfold parseFull parseIndexCore
    rw [hm]
    dsimp only
    rw [hd]
    cases hfind : INDEX_PREFIX.find? (fun kv => decide (kv.2 = g.pref)) with
    | none =>
      refine ⟨⟨some g.pref, none, some ds, none, g.suff⟩, ?_, rfl, rfl⟩
      dsimp only
      rw [hstp]
      rfl
    | some kv =>
      refine ⟨⟨some g.pref, some kv.1, some ds, none, g.suff⟩, ?_, rfl, rfl⟩
      dsimp only
      rw [hstp]
      rfl

/-- C6 amended witness: the three clauses at concrete candidates (the
string ####, an unregistered ZZZZ prefix with a well-formed tail, and a
month-13 date under the registered prefix MVDC). -/
theorem parseIndex_error_modes_witness :
    parseFull sHash false = .error (.parserError 0)
      ∧ (∃ r, parseFull (sZZZZ ++ sValidIdx.drop 4) true = .ok r ∧ r.mediatype = none)
      ∧ (∃ r, parseFull sBadDate true = .ok r ∧ r.datets = none) := by
  refine ⟨parseIndex_error_modes.1 sHash (by decide) false, ?_, ?_⟩
  · obtain ⟨r, h1, _, h3⟩ := parseIndex_error_modes.2.1 (sZZZZ ++ sValidIdx.drop 4)
      ⟨sZZZZ, some ((sValidIdx.drop 4).take 14), some ((sValidIdx.drop 4).drop 14)⟩
      (by decide) (by decide)
    exact ⟨r, h1, h3⟩
  · obtain ⟨r, h1, _, h3⟩ := parseIndex_error_modes.2.2 sBadDate
      ⟨sMVDC, some ((sBadDate.drop 4).take 14), some ((sBadDate.drop 4).drop 14)⟩
      ((sBadDate.drop 4).take 14) (by decide) rfl (by decide)
    exact ⟨r, h1, h3⟩

/-- C9 counterexample: File.getPath on a detached handle (null path)
returns the null value successfully instead of failing; the repository
test test_file_unlink asserts exactly this returned None. -/
theorem getPath_null_returns_value : getPathF ⟨none, none⟩ = .ok none := rfl

/-- C9 amended: on a null path, getName, getExt and getDir of File and
getName of Directory fail (with the TypeError that the os.path helpers
raise on None, the InvalidReference failure of the spec), but getPath
of both File and Directory returns the null value without failing. -/
theorem null_path_accessors (f : MFile) (d : MDir) (hf : f.path = none) (hd : d.path = none) :
    getPathF f = .ok none ∧ getNameF f = .error .typeError ∧ getExtF f = .error .typeError
      ∧ getDirF f = .error .typeError
      ∧ getPathD d = .ok none ∧ getNameD d = .error .typeError := by
  refine ⟨?_, ?_, ?_, ?_, ?_, ?_⟩ <;>
    simp [getPathF, getNameF, getExtF, getDirF, getPathD, getNameD, hf, hd]

/-- C9 amended witness: the accessors on concrete detached handles. -/
theorem null_path_accessors_witness :
    getPathF ⟨none, none⟩ = .ok none ∧ getNameF ⟨none, none⟩ = .error .typeError
      ∧ getExtF ⟨none, none⟩ = .error .typeError ∧ getDirF ⟨none, none⟩ = .error .typeError
      ∧ getPathD ⟨none, none⟩ = .ok none ∧ getNameD ⟨none, none⟩ = .error .typeError :=
  null_path_accessors ⟨none, none⟩ ⟨none, none⟩ rfl rfl

theorem find?_fsetL_self (l : List (FilePath × FData)) (p : FilePath) (d : FData) :
    (fsetL l p d).find? (fun e => decide (e.1 = p)) = some (p, d) := by
  induction l with
  | nil => simp [fsetL]
  | cons e rest ih =>
    by_cases he : e.1 = p
    · rw [fsetL, if_pos he]
      simp
    · rw [fsetL, if_neg he]
      rw [List.find?_cons_of_neg _ (by simpa using he), ih]

theorem find?_fsetL_ne (l : List (FilePath × FData)) (p q : FilePath) (d : FData)
    (h : q ≠ p) :
    (fsetL l p d).find? (fun e => decide (e.1 = q))
      = l.find? (fun e => decide (e.1 = q)) := by
  induction l with
  | nil =>
    show List.find? _ [(p, d)] = List.find? _ []
    rw [List.find?_cons_of_neg _ (by simpa using Ne.symm h)]
  | cons e rest ih =>
    by_cases he : e.1 = p
    · rw [fsetL, if_pos he]
      have hne : ¬ e.1 = q := by rw [he]; exact Ne.symm h
      rw [List.find?_cons_of_neg _ (by simpa using Ne.symm h),
        List.find?_cons_of_neg _ (by simpa using hne)]
    · rw [fsetL, if_neg he]
      by_cases heq : e.1 = q
      · rw [List.find?_cons_of_pos _ (by simpa using heq),
          List.find?_cons_of_pos _ (by simpa using heq)]
      · rw [List.find?_cons_of_neg _ (by simpa using heq),
          List.find?_cons_of_neg _ (by simpa using heq), ih]

theorem find?_fdelL_self (l : List (FilePath × FData)) (p : FilePath) :
    (fdelL l p).find? (fun e => decide (e.1 = p)) = none := by
  induction l with
  | nil => simp [fdelL]
  | cons e rest ih =>
    by_cases he : e.1 = p
    · rw [fdelL, List.filter_cons_of_neg (by simpa using he)]
      exact ih
    · rw [fdelL, List.filter_cons_of_pos (by simpa using he)]
      rw [List.find?_cons_of_neg _ (by simpa using he)]
      exact ih

theorem find?_fdelL_ne (l : List (FilePath × FData)) (p q : FilePath) (h : q ≠ p) :
    (fdelL l p).find? (fun e => decide (e.1 = q))
      = l.find? (fun e => decide (e.1 = q)) := by
  induction l with
  | nil => simp [fdelL]
  | cons e rest ih =>
    by_cases he : e.1 = p
    · rw [fdelL, List.filter_cons_of_neg (by simpa using he)]
      have hne : ¬ e.1 = q := by rw [he]; exact Ne.symm h
      rw [List.find?_cons_of_neg _ (by simpa using hne)]
      exact ih
    · rw [fdelL, List.filter_cons_of_pos (by simpa using he)]
      by_cases heq : e.1 = q
      · rw [List.find?_cons_of_pos _ (by simpa using heq),
          List.find?_cons_of_pos _ (by simpa using heq)]
      · rw [List.find?_cons_of_neg _ (by simpa using heq),
          List.find?_cons_of_neg _ (by simpa using heq)]
        unfold fdelL at ih
        exact ih

theorem fget_set_self (l : List (FilePath × FData)) (ds : List (List PyStr))
    (p : FilePath) (d : FData) : fget ⟨fsetL l p d, ds⟩ p = some d := by
  show ((fsetL l p d).find? (fun e => decide (e.1 = p))).map (fun e => e.2) = some d
  rw [find?_fsetL_self]
  rfl

theorem fget_set_ne (l : List (FilePath × FData)) (ds ds' : List (List PyStr))
    (p q : FilePath) (d : FData) (h : q ≠ p) :
    fget ⟨fsetL l p d, ds⟩ q = fget ⟨l, ds'⟩ q := by
  show ((fsetL l p d).find? (fun e => decide (e.1 = q))).map (fun e => e.2)
    = (l.find? (fun e => decide (e.1 = q))).map (fun e => e.2)
  rw [find?_fsetL_ne l p q d h]

theorem fget_del_self (l : List (FilePath × FData)) (ds : List (List PyStr)) (p : FilePath) :
    fget ⟨fdelL l p, ds⟩ p = none := by
  show ((fdelL l p).find? (fun e => decide (e.1 = p))).map (fun e => e.2) = none
  rw [find?_fdelL_self]
  rfl

theorem fget_del_ne (l : List (FilePath × FData)) (ds ds' : List (List PyStr))
    (p q : FilePath) (h : q ≠ p) :
    fget ⟨fdelL l p, ds⟩ q = fget ⟨l, ds'⟩ q := by
  show ((fdelL l p).find? (fun e => decide (e.1 = q))).map (fun e => e.2)
    = (l.find? (fun e => decide (e.1 = q))).map (fun e => e.2)
  rw [find?_fdelL_ne l p q h]

theorem ensureDir_files (fs : FS) (dd : List PyStr) : (ensureDir fs dd).files = fs.files := by
  unfold ensureDir
  split <;> rfl

theorem fget_ensureDir (fs : FS) (dd : List PyStr) (q : FilePath) :
    fget (ensureDir fs dd) q = fget fs q := by
  unfold fget
  rw [ensureDir_files]

theorem fget_mem (fs : FS) (p : FilePath) (d : FData) (h : fget fs p = some d) :
    (p, d) ∈ fs.files := by
  unfold fget at h
  cases hf : fs.files.find? (fun e => decide (e.1 = p)) with
  | none => rw [hf] at h; simp at h
  | some e =>
    rw [hf] at h
    simp at h
    have hm := List.mem_of_find?_eq_some hf
    have hp := List.find?_some hf
    simp at hp
    have : e = (p, d) := by
      cases e
      simp at hp h ⊢
      exact ⟨hp, h⟩
    rw [← this]
    exact hm

theorem mem_filesInDir (fs : FS) (dd : List PyStr) (e : FilePath × FData) :
    e ∈ filesInDir fs dd ↔ e ∈ fs.files ∧ e.1.dir = dd := by
  unfold filesInDir
  simp [List.mem_filter]

theorem fget_files_eq {fs fs' : FS} (h : fs'.files = fs.files) (q : FilePath) :
    fget fs' q = fget fs q := by
  unfold fget
  rw [h]

theorem copyToF_ok (fs : FS) (tNow : Int) (f : MFile) (sp dest : FilePath)
    (pD strict : Bool) (fs' : FS) (nf : MFile)
    (hp : f.path = some sp)
    (hcp : copyToF fs tNow f dest pD strict = (fs', .ok nf)) :
    fget fs' sp = fget fs sp ∧ nf = ⟨some dest, f.mediaType⟩
      ∧ fget fs' dest ≠ none ∧ fget fs dest = none ∧ sp ≠ dest := by
  unfold copyToF at hcp
  rw [hp] at hcp
  dsimp only at hcp
  cases hsd : fget (ensureDir fs dest.dir) sp with
  | none => rw [hsd] at hcp; simp at hcp
  | some sd =>
    rw [hsd] at hcp
    dsimp only at hcp
    by_cases hcol : ∃ e ∈ filesInDir (ensureDir fs dest.dir) dest.dir,
        (e.2.content = sd.content ∧ strict = true) ∨ e.1 = dest
    · rw [if_pos hcol] at hcp
      simp at hcp
    · rw [if_neg hcol] at hcp
      have hnd : fget fs dest = none := by
        cases hgd : fget fs dest with
        | none => rfl
        | some dd =>
          exfalso
          apply hcol
          refine ⟨(dest, dd), ?_, Or.inr rfl⟩
          rw [mem_filesInDir]
          have hh : fget (ensureDir fs dest.dir) dest = some dd := by
            rw [fget_ensureDir]
            exact hgd
          exact ⟨fget_mem _ _ _ hh, rfl⟩
      have hne : sp ≠ dest := by
        intro hcon
        rw [hcon, fget_ensureDir] at hsd
        rw [hsd] at hnd
        simp at hnd
      simp only [Prod.mk.injEq, Except.ok.injEq] at hcp
      obtain ⟨hfs, hnf⟩ := hcp
      subst hfs
      refine ⟨?_, hnf.symm, ?_, hnd, hne⟩
      · cases pD with
        | true =>
          rw [if_pos rfl]
          rw [fget_set_ne _ _ fs.dirs _ _ _ hne, fget_set_ne _ _ fs.dirs _ _ _ hne]
          rw [show fget ⟨(ensureDir fs dest.dir).files, fs.dirs⟩ sp
            = fget (ensureDir fs dest.dir) sp from rfl]
          rw [fget_ensureDir]
        | false =>
          rw [if_neg (by simp)]
          rw [fget_set_ne _ _ fs.dirs _ _ _ hne]
          rw [show fget ⟨(ensureDir fs dest.dir).files, fs.dirs⟩ sp
            = fget (ensureDir fs dest.dir) sp from rfl]
          rw [fget_ensureDir]
      · cases pD with
        | true =>
          rw [if_pos rfl]
          rw [fget_set_self]
          simp
        | false =>
          rw [if_neg (by simp)]
          rw [fget_set_self]
          simp

theorem moveToF_ok (fs : FS) (f : MFile) (sp dest : FilePath) (strict : Bool)
    (fs' : FS) (f' : MFile)
    (hp : f.path = some sp)
    (hmv : moveToF fs f dest strict = (fs', f', .ok ())) :
    ∃ sd, fget fs sp = some sd
      ∧ f' = ⟨some dest, f.mediaType⟩
      ∧ fget fs' sp = none
      ∧ fget fs' dest = some sd
      ∧ fget fs dest = none
      ∧ sp ≠ dest := by
  unfold moveToF at hmv
  rw [hp] at hmv
  dsimp only at hmv
  cases hsd : fget (ensureDir fs dest.dir) sp with
  | none => rw [hsd] at hmv; simp at hmv
  | some sd =>
    rw [hsd] at hmv
    dsimp only at hmv
    by_cases hcol : ∃ e ∈ filesInDir (ensureDir fs dest.dir) dest.dir,
        (e.2.content = sd.content ∧ strict = true) ∨ e.1 = dest
    · rw [if_pos hcol] at hmv
      simp at hmv
    · rw [if_neg hcol] at hmv
      have hnd : fget fs dest = none := by
        cases hgd : fget fs dest with
        | none => rfl
        | some dd =>
          exfalso
          apply hcol
          refine ⟨(dest, dd), ?_, Or.inr rfl⟩
          rw [mem_filesInDir]
          have hh : fget (ensureDir fs dest.dir) dest = some dd := by
            rw [fget_ensureDir]
            exact hgd
          exact ⟨fget_mem _ _ _ hh, rfl⟩
      have hne : sp ≠ dest := by
        intro hcon
        rw [hcon, fget_ensureDir] at hsd
        rw [hsd] at hnd
        simp at hnd
      simp only [Prod.mk.injEq] at hmv
      obtain ⟨hfs, hf', _⟩ := hmv
      subst hfs
      have hspd : fget fs sp = some sd := by
        rw [fget_ensureDir] at hsd
        exact hsd
      refine ⟨sd, hspd, hf'.symm, ?_, ?_, hnd, hne⟩
      · rw [fget_set_ne _ _ fs.dirs _ _ _ hne]
        rw [show fget ⟨fdelL (ensureDir fs dest.dir).files sp, fs.dirs⟩ sp
          = fget ⟨fdelL (ensureDir fs dest.dir).files sp, fs.dirs⟩ sp from rfl]
        exact fget_del_self _ fs.dirs sp
      · exact fget_set_self _ _ dest sd

theorem copyToF_err (fs : FS) (tNow : Int) (f : MFile) (dest : FilePath)
    (pD strict : Bool) (fs' : FS) (e : PyErr)
    (hcp : copyToF fs tNow f dest pD strict = (fs', .error e)) :
    fs'.files = fs.files := by
  unfold copyToF at hcp
  cases hp : f.path with
  | none =>
    rw [hp] at hcp
    simp at hcp
    rw [← hcp.1]
  | some sp =>
    rw [hp] at hcp
    dsimp only at hcp
    cases hsd : fget (ensureDir fs dest.dir) sp with
    | none =>
      rw [hsd] at hcp
      simp at hcp
      rw [← hcp.1, ensureDir_files]
    | some sd =>
      rw [hsd] at hcp
      dsimp only at hcp
      by_cases hcol : ∃ e ∈ filesInDir (ensureDir fs dest.dir) dest.dir,
          (e.2.content = sd.content ∧ strict = true) ∨ e.1 = dest
      · rw [if_pos hcol] at hcp
        simp at hcp
        rw [← hcp.1, ensureDir_files]
      · rw [if_neg hcol] at hcp
        cases pD <;> simp at hcp

theorem moveToF_err (fs : FS) (f : MFile) (dest : FilePath) (strict : Bool)
    (fs' : FS) (f' : MFile) (e : PyErr)
    (hmv : moveToF fs f dest strict = (fs', f', .error e)) :
    fs'.files = fs.files ∧ f' = f
      ∧ (e = .typeError ∨ e = .fileNotFound ∨ e = .fileExists) := by
  unfold moveToF at hmv
  cases hp : f.path with
  | none =>
    rw [hp] at hmv
    simp at hmv
    exact ⟨by rw [← hmv.1], hmv.2.1.symm, Or.inl hmv.2.2.symm⟩
  | some sp =>
    rw [hp] at hmv
    dsimp only at hmv
    cases hsd : fget (ensureDir fs dest.dir) sp with
    | none =>
      rw [hsd] at hmv
      simp at hmv
      exact ⟨by rw [← hmv.1, ensureDir_files], hmv.2.1.symm, Or.inr (Or.inl hmv.2.2.symm)⟩
    | some sd =>
      rw [hsd] at hmv
      dsimp only at hmv
      by_cases hcol : ∃ e ∈ filesInDir (ensureDir fs dest.dir) dest.dir,
          (e.2.content = sd.content ∧ strict = true) ∨ e.1 = dest
      · rw [if_pos hcol] at hmv
        simp at hmv
        exact ⟨by rw [← hmv.1, ensureDir_files], hmv.2.1.symm, Or.inr (Or.inr hmv.2.2.symm)⟩
      · rw [if_neg hcol] at hmv
        simp at hmv

/-- C8: a successful copyTo leaves the source entry (content, size and
both timestamps) unchanged in the filesystem and hands back a fresh
independent File bound to the destination with the same media type,
while the receiver of copyTo is never reassigned (its body contains no
write to the path attribute, which the embedding renders by returning
no modified receiver); a successful moveTo updates the same handle in
place to the destination, keeping its media type, returns None, and
afterwards no file exists at the original path. -/
theorem copyTo_moveTo_frame :
    (∀ (fs : FS) (tNow : Int) (f : MFile) (sp dest : FilePath) (pD strict : Bool)
        (fs' : FS) (nf : MFile),
      f.path = some sp →
      copyToF fs tNow f dest pD strict = (fs', .ok nf) →
      fget fs' sp = fget fs sp ∧ nf = ⟨some dest, f.mediaType⟩)
    ∧ (∀ (fs : FS) (f : MFile) (sp dest : FilePath) (strict : Bool) (fs' : FS) (f' : MFile),
      f.path = some sp →
      moveToF fs f dest strict = (fs', f', .ok ()) →
      f' = ⟨some dest, f.mediaType⟩ ∧ fget fs' sp = none) := by
  constructor
  · intro fs tNow f sp dest pD strict fs' nf hp hcp
    have h := copyToF_ok fs tNow f sp dest pD strict fs' nf hp hcp
    exact ⟨h.1, h.2.1⟩
  · intro fs f sp dest strict fs' f' hp hmv
    obtain ⟨sd, _, hf', hsp, _, _, _⟩ := moveToF_ok fs f sp dest strict fs' f' hp hmv
    exact ⟨hf', hsp⟩

/-- C8 witness: the copy and move frame conditions at the concrete
tiny scenario. -/
theorem copyTo_moveTo_frame_witness :
    (fget (copyToF fsTiny 99 fTiny pTinyDest true true).1 (⟨dirSrc, sMedia1, sDat⟩ : FilePath)
        = fget fsTiny (⟨dirSrc, sMedia1, sDat⟩ : FilePath)
      ∧ (⟨some pTinyDest, fTiny.mediaType⟩ : MFile) = ⟨some pTinyDest, fTiny.mediaType⟩)
    ∧ ((⟨some pTinyDest, fTiny.mediaType⟩ : MFile) = ⟨some pTinyDest, fTiny.mediaType⟩
      ∧ fget (moveToF fsTiny fTiny pTinyDest true).1 (⟨dirSrc, sMedia1, sDat⟩ : FilePath) = none) := by
  constructor
  · have h := copyTo_moveTo_frame.1 fsTiny 99 fTiny ⟨dirSrc, sMedia1, sDat⟩ pTinyDest true true
      (copyToF fsTiny 99 fTiny pTinyDest true true).1
      ⟨some pTinyDest, fTiny.mediaType⟩ (by decide) (by decide)
    exact ⟨h.1, rfl⟩
  · have h := copyTo_moveTo_frame.2 fsTiny fTiny ⟨dirSrc, sMedia1, sDat⟩ pTinyDest true
      (moveToF fsTiny fTiny pTinyDest true).1 ⟨some pTinyDest, fTiny.mediaType⟩
      (by decide) (by decide)
    exact ⟨rfl, h.2⟩

/-- C1: on a file whose name already parses as a valid index, setIndex
with force false fails with the already-indexed FileIndexingError and
changes nothing; setIndex with force true succeeds (returning None)
but does NOT rename the file -- it only resyncs both timestamps from
the index (1280756694 encodes 2010-08-02 13:44:54) and leaves the
handle, hence the name and path, exactly as before, because the forced
branch runs setDatetime and then falls out of the try block without
ever reaching the index-generation code.  This contradicts step two of
the claimed contract (re-sync, then rename to a newly generated index)
and the method docstring, under which force true permits
re-indexing. -/
theorem setIndex_force_true_does_not_rename :
    setIndexF fsIndexed fIndexed false
        = (fsIndexed, fIndexed, .error (.fileIndexingError .alreadyIndexed))
      ∧ setIndexF fsIndexed fIndexed true
        = (⟨[(pIndexed, ⟨7, 2048, 1280756694, 1280756694⟩)], [dirArch]⟩, fIndexed, .ok ()) := by
  exact ⟨by decide, by decide⟩

/-- C7: on a directory whose single file carries an unregistered index
prefix, checkIntegrity with fix true aborts with an uncaught
FileIndexingError carrying no issue list: the repair path resyncs the
datetime and then calls setIndex, whose FileIndexingError (the media
type cannot be derived) is not a ValueError and escapes the issue
collector, contradicting the contract of raising IntegrityCheckFailed
with the full issue list whenever issues remain (and the docstring of
checkIntegrity, which promises DirectoryIntegrityError).  Without fix
the same directory produces exactly the promised single invalid-index
issue. -/
theorem checkIntegrity_fix_escapes_with_indexing_error :
    (checkIntegrityD 3 fsBadPref dArch true).2
        = .error (.fileIndexingError .couldNotFormat)
      ∧ (checkIntegrityD 3 fsBadPref dArch false).2
        = .error (.directoryIntegrityError [(pBadPref, .invalidIndex)]) := by
  exact ⟨by decide, by decide⟩

theorem parseIndexCore_err (g : Option Groups) (ig : Bool) (e : PyErr)
    (h : parseIndexCore g ig = .error e) : ∃ c, e = .parserError c := by
  unfold parseIndexCore at h
  cases g with
  | none =>
    simp at h
    exact ⟨0, h.symm⟩
  | some gr =>
    dsimp only at h
    cases hf : INDEX_PREFIX.find? (fun kv => decide (kv.2 = gr.pref)) with
    | none =>
      rw [hf] at h
      cases ig with
      | false =>
        simp at h
        exact ⟨1, h.symm⟩
      | true =>
        dsimp only at h
        cases hd : gr.date with
        | none => rw [hd] at h; simp at h
        | some ds =>
          rw [hd] at h
          dsimp only at h
          cases hs : strptimeIdx ds with
          | none => rw [hs] at h; simp at h
          | some dtv => rw [hs] at h; simp at h
    | some kv =>
      rw [hf] at h
      dsimp only at h
      cases hd : gr.date with
      | none => rw [hd] at h; simp at h
      | some ds =>
        rw [hd] at h
        dsimp only at h
        cases hs : strptimeIdx ds with
        | none =>
          rw [hs] at h
          cases ig with
          | false =>
            simp at h
            exact ⟨2, h.symm⟩
          | true => simp at h
        | some dtv => rw [hs] at h; simp at h

theorem getMediaTypeF_err (f : MFile) (e : PyErr) (h : getMediaTypeF f = .error e) :
    e = .typeError ∨ ∃ c, e = .parserError c := by
  unfold getMediaTypeF at h
  cases hm : f.mediaType with
  | some t => rw [hm] at h; simp at h
  | none =>
    rw [hm] at h
    cases hp : f.path with
    | none => rw [hp] at h; simp at h; exact Or.inl h.symm
    | some p =>
      rw [hp] at h
      dsimp only at h
      cases hpo : parsePrefOnly p.stem true with
      | ok r => rw [hpo] at h; simp at h
      | error e1 =>
        rw [hpo] at h
        simp at h
        subst h
        exact Or.inr (parseIndexCore_err _ _ _ hpo)

theorem getDatetimeM_err (fs : FS) (f : MFile) (e : PyErr) (h : getDatetimeM fs f = .error e) :
    e = .typeError ∨ e = .fileNotFound := by
  unfold getDatetimeM at h
  cases hp : f.path with
  | none => rw [hp] at h; simp at h; exact Or.inl h.symm
  | some p =>
    rw [hp] at h
    dsimp only at h
    cases hg : fget fs p with
    | none => rw [hg] at h; simp at h; exact Or.inr h.symm
    | some d => rw [hg] at h; simp at h

theorem getSizeF_err (fs : FS) (f : MFile) (e : PyErr) (h : getSizeF fs f = .error e) :
    e = .fileNotFound := by
  unfold getSizeF at h
  cases hp : f.path with
  | none => rw [hp] at h; simp at h; exact h.symm
  | some p =>
    rw [hp] at h
    dsimp only at h
    cases hg : fget fs p with
    | none => rw [hg] at h; simp at h; exact h.symm
    | some d => rw [hg] at h; simp at h

theorem getPrefix_err (mt : Option PyStr) (e : PyErr) (h : getPrefix mt = .error e) :
    e = .valueError := by
  unfold getPrefix at h
  cases mt with
  | none => simp at h; exact h.symm
  | some m =>
    dsimp only at h
    cases hf : INDEX_PREFIX.find? (fun kv => decide (kv.1 = m)) with
    | none => rw [hf] at h; simp at h; exact h.symm
    | some kv => rw [hf] at h; simp at h

theorem numberFormatToString_err (n L : Int) (strict : Bool) (e : PyErr)
    (h : numberFormatToString n L strict = .error e) : e = .valueError := by
  unfold numberFormatToString at h
  split at h
  · simp at h
  · split at h
    · simp at h
      exact h.symm
    · dsimp only at h
      split at h
      · split at h
        · simp at h
          exact h.symm
        · simp at h
      · simp at h

theorem genIndex_err (pfx : PyStr) (ts n : Int) (e : PyErr)
    (h : genIndex pfx ts n = .error e) : (∃ c, e = .parserError c) ∨ e = .typeError := by
  unfold genIndex at h
  cases hft : fromtimestamp ts with
  | none => rw [hft] at h; simp at h; exact Or.inl ⟨1000, h.symm⟩
  | some dt =>
    rw [hft] at h
    dsimp only at h
    cases hnf : numberFormatToString n 5 false with
    | error e1 => rw [hnf] at h; simp at h; exact Or.inl ⟨1000, h.symm⟩
    | ok u? =>
      rw [hnf] at h
      cases u? with
      | none => simp at h; exact Or.inr h.symm
      | some u =>
        dsimp only at h
        cases hpf : parseFull (pfx ++ (strftimeIdx dt ++ u)) false with
        | error e2 =>
          rw [hpf] at h
          simp at h
          subst h
          exact Or.inl (parseIndexCore_err _ _ _ hpf)
        | ok r => rw [hpf] at h; simp at h

theorem setNameF_err (fs : FS) (f : MFile) (nm : PyStr) (fs' : FS) (f' : MFile) (e : PyErr)
    (h : setNameF fs f nm = (fs', f', .error e)) :
    fs' = fs ∧ f' = f ∧ (e = .typeError ∨ e = .fileExists ∨ e = .fileNotFound) := by
  unfold setNameF at h
  cases hp : f.path with
  | none =>
    rw [hp] at h
    simp at h
    exact ⟨h.1.symm, h.2.1.symm, Or.inl h.2.2.symm⟩
  | some p =>
    rw [hp] at h
    dsimp only at h
    split at h
    · simp at h
      exact ⟨h.1.symm, h.2.1.symm, Or.inr (Or.inl h.2.2.symm)⟩
    · cases hg : fget fs p with
      | none =>
        rw [hg] at h
        simp at h
        exact ⟨h.1.symm, h.2.1.symm, Or.inr (Or.inr h.2.2.symm)⟩
      | some d => rw [hg] at h; simp at h

theorem deleteF_ok (fs : FS) (f : MFile) (fs' : FS) (f' : MFile)
    (h : deleteF fs f = (fs', f', .ok ())) :
    ∃ p, f.path = some p ∧ fs' = ⟨fdelL fs.files p, fs.dirs⟩ := by
  unfold deleteF at h
  cases hp : f.path with
  | none => rw [hp] at h; simp at h
  | some p =>
    rw [hp] at h
    dsimp only at h
    cases hg : fget fs p with
    | none => rw [hg] at h; simp at h
    | some d =>
      rw [hg] at h
      simp at h
      exact ⟨p, rfl, h.1.symm⟩

theorem deleteF_err (fs : FS) (f : MFile) (fs' : FS) (f' : MFile) (e : PyErr)
    (h : deleteF fs f = (fs', f', .error e)) : e = .fileNotFound := by
  unfold deleteF at h
  cases hp : f.path with
  | none => rw [hp] at h; simp at h; exact h.2.2.symm
  | some p =>
    rw [hp] at h
    dsimp only at h
    cases hg : fget fs p with
    | none => rw [hg] at h; simp at h; exact h.2.2.symm
    | some d => rw [hg] at h; simp at h

theorem setIndexF_false_err (fs : FS) (f : MFile) (fs' : FS) (f' : MFile) (e : PyErr)
    (h : setIndexF fs f false = (fs', f', .error e)) :
    fs' = fs ∧ f' = f ∧ ∀ m, e ≠ .fileImportingError m := by
  unfold setIndexF at h
  cases hp : f.path with
  | none =>
    rw [hp] at h
    simp at h
    refine ⟨h.1.symm, h.2.1.symm, fun m hm => ?_⟩
    rw [← h.2.2] at hm
    simp at hm
  | some p =>
    rw [hp] at h
    dsimp only at h
    cases hpf : parseFull p.stem false with
    | ok r =>
      rw [hpf] at h
      simp at h
      refine ⟨h.1.symm, h.2.1.symm, fun m hm => ?_⟩
      rw [← h.2.2] at hm
      simp at hm
    | error e0 =>
      rw [hpf] at h
      dsimp only at h
      cases hmt : getMediaTypeF f with
      | error e1 =>
        rw [hmt] at h
        simp at h
        refine ⟨h.1.symm, h.2.1.symm, fun m hm => ?_⟩
        rw [← h.2.2] at hm
        rcases getMediaTypeF_err f e1 hmt with h2 | ⟨c, h2⟩ <;> subst h2 <;> simp at hm
      | ok mt =>
        rw [hmt] at h
        dsimp only at h
        cases hgp : getPrefix mt with
        | error e2 =>
          rw [hgp] at h
          have he2 := getPrefix_err mt e2 hgp
          subst he2
          simp at h
          refine ⟨h.1.symm, h.2.1.symm, fun m hm => ?_⟩
          rw [← h.2.2] at hm
          simp at hm
        | ok pfx =>
          rw [hgp] at h
          dsimp only at h
          cases hdm : getDatetimeM fs f with
          | error e3 =>
            rw [hdm] at h
            simp at h
            refine ⟨h.1.symm, h.2.1.symm, fun m hm => ?_⟩
            rw [← h.2.2] at hm
            rcases getDatetimeM_err fs f e3 hdm with h2 | h2 <;> subst h2 <;> simp at hm
          | ok ts =>
            rw [hdm] at h
            dsimp only at h
            cases hsz : getSizeF fs f with
            | error e4 =>
              rw [hsz] at h
              simp at h
              refine ⟨h.1.symm, h.2.1.symm, fun m hm => ?_⟩
              rw [← h.2.2] at hm
              have h2 := getSizeF_err fs f e4 hsz
              subst h2
              simp at hm
            | ok sz =>
              rw [hsz] at h
              dsimp only at h
              cases hgi : genIndex pfx ts (sz : Int) with
              | error e5 =>
                rw [hgi] at h
                have hshape := genIndex_err pfx ts (sz : Int) e5 hgi
                cases e5 <;> simp at h <;>
                  refine ⟨h.1.symm, h.2.1.symm, fun m hm => ?_⟩ <;>
                  rw [← h.2.2] at hm <;> simp at hm
                all_goals (rcases hshape with ⟨c, hc⟩ | hc <;> simp at hc)
              | ok idx =>
                rw [hgi] at h
                dsimp only at h
                rcases hsn : setNameF fs f idx with ⟨fs1, f1, sres⟩
                rw [hsn] at h
                cases sres with
                | ok u =>
                  cases u
                  simp at h
                | error e6 =>
                  obtain ⟨hfs1, hf1, hsh⟩ := setNameF_err fs f idx fs1 f1 e6 hsn
                  subst hfs1
                  subst hf1
                  cases e6 <;> simp at h <;>
                    refine ⟨h.1.symm, h.2.1.symm, fun m hm => ?_⟩ <;>
                    rw [← h.2.2] at hm <;> simp at hm
                  all_goals (rcases hsh with hc | hc | hc <;> simp at hc)

theorem importFile_rollback_copy (fs : FS) (tNow : Int) (src : MFile)
    (dstRoot : List PyStr) (sp : FilePath) (m : ErrMsg) (fs' : FS) (src' : MFile)
    (hp : src.path = some sp)
    (h : importFileF fs tNow src dstRoot true true
        = (fs', src', .error (.fileImportingError m))) :
    src' = src
      ∧ fget fs' ⟨dstRoot, sp.stem, sp.ext⟩ = fget fs ⟨dstRoot, sp.stem, sp.ext⟩
      ∧ fget fs' sp = fget fs sp := by
  unfold importFileF at h
  rw [hp] at h
  dsimp only at h
  have hens : ∀ q, fget (ensureDir fs dstRoot) q = fget fs q := fun q => fget_ensureDir fs dstRoot q
  rcases hcp : copyToF (ensureDir fs dstRoot) tNow src ⟨dstRoot, sp.stem, sp.ext⟩ true true
    with ⟨fs2, cres⟩
  rw [hcp] at h
  cases cres with
  | error e =>
    have hfiles : fs2.files = fs.files := by
      rw [copyToF_err (ensureDir fs dstRoot) tNow src _ true true fs2 e hcp, ensureDir_files]
    cases e <;> simp at h <;>
      exact ⟨h.2.1.symm, by rw [← h.1]; exact fget_files_eq hfiles _,
        by rw [← h.1]; exact fget_files_eq hfiles _⟩
  | ok newf =>
    dsimp only at h
    obtain ⟨hsp2, hnewf, hdne, hdnone, hneq⟩ :=
      copyToF_ok (ensureDir fs dstRoot) tNow src sp ⟨dstRoot, sp.stem, sp.ext⟩ true true
        fs2 newf hp hcp
    rcases hsi : setIndexF fs2 newf false with ⟨fs3, newf1, sres⟩
    rw [hsi] at h
    cases sres with
    | ok u =>
      cases u
      simp at h
    | error esi =>
      obtain ⟨hfs3, hnf1, hnoimp⟩ := setIndexF_false_err fs2 newf fs3 newf1 esi hsi
      cases esi with
      | fileIndexingError m2 =>
        dsimp only at h
        rcases hdel : deleteF fs3 newf1 with ⟨fs4, nf2, dres⟩
        rw [hdel] at h
        cases dres with
        | ok u2 =>
          cases u2
          simp at h
          obtain ⟨q, hqp, hfs4⟩ := deleteF_ok fs3 newf1 fs4 nf2 hdel
          rw [hnf1, hnewf] at hqp
          simp at hqp
          subst hqp
          subst hfs4
          refine ⟨h.2.1.symm, ?_, ?_⟩
          · rw [← h.1]
            rw [fget_del_self]
            rw [← hens ⟨dstRoot, sp.stem, sp.ext⟩]
            exact hdnone.symm
          · rw [← h.1]
            rw [fget_del_ne fs3.files fs3.dirs fs3.dirs _ _ hneq]
            rw [show fget ⟨fs3.files, fs3.dirs⟩ sp = fget fs3 sp from rfl, hfs3]
            rw [hsp2, hens sp]
        | error ed =>
          have hed := deleteF_err fs3 newf1 fs4 nf2 ed hdel
          subst hed
          simp at h
      | fileImportingError m2 =>
        simp at h
        exact absurd rfl (hnoimp m2)
      | parserError c => simp at h
      | valueError => simp at h
      | typeError => simp at h
      | keyError => simp at h
      | fileNotFound => simp at h
      | fileExists => simp at h
      | notADirectory => simp at h
      | directoryIntegrityError issues => simp at h
      | fuelOut => simp at h

theorem importFile_rollback_move (fs : FS) (tNow : Int) (src : MFile)
    (dstRoot : List PyStr) (sp : FilePath) (m : ErrMsg) (fs' : FS) (src' : MFile)
    (hp : src.path = some sp)
    (h : importFileF fs tNow src dstRoot false true
        = (fs', src', .error (.fileImportingError m))) :
    src'.path = some sp
      ∧ fget fs' ⟨dstRoot, sp.stem, sp.ext⟩ = fget fs ⟨dstRoot, sp.stem, sp.ext⟩
      ∧ fget fs' sp = fget fs sp := by
  unfold importFileF at h
  rw [hp] at h
  dsimp only at h
  have hens : ∀ q, fget (ensureDir fs dstRoot) q = fget fs q := fun q => fget_ensureDir fs dstRoot q
  rcases hmv : moveToF (ensureDir fs dstRoot) src ⟨dstRoot, sp.stem, sp.ext⟩ true
    with ⟨fs2, src1, mres⟩
  rw [hmv] at h
  cases mres with
  | error e =>
    obtain ⟨hfiles, hsrc1, hshape⟩ :=
      moveToF_err (ensureDir fs dstRoot) src ⟨dstRoot, sp.stem, sp.ext⟩ true fs2 src1 e hmv
    have hfeq : ∀ q, fget fs2 q = fget fs q := by
      intro q
      rw [fget_files_eq hfiles q, hens q]
    cases e <;> simp at h <;>
      exact ⟨by rw [← h.2.1, hsrc1, hp], by rw [← h.1]; exact hfeq _, by rw [← h.1]; exact hfeq _⟩
  | ok u =>
    cases u
    dsimp only at h
    obtain ⟨sd, hsd, hsrc1, hsp_none, hdest_sd, hdest_none, hne⟩ :=
      moveToF_ok (ensureDir fs dstRoot) src sp ⟨dstRoot, sp.stem, sp.ext⟩ true fs2 src1 hp hmv
    rcases hsi : setIndexF fs2 src1 false with ⟨fs3, src2, sres⟩
    rw [hsi] at h
    cases sres with
    | ok u2 =>
      cases u2
      simp at h
    | error esi =>
      obtain ⟨hfs3, hsrc2, hnoimp⟩ := setIndexF_false_err fs2 src1 fs3 src2 esi hsi
      cases esi with
      | fileIndexingError m2 =>
        dsimp only at h
        rcases hrb : moveToF fs3 src2 sp true with ⟨fs4, src3, rres⟩
        rw [hrb] at h
        cases rres with
        | ok u3 =>
          cases u3
          simp at h
          have hsrc2p : src2.path = some ⟨dstRoot, sp.stem, sp.ext⟩ := by
            rw [hsrc2, hsrc1]
          obtain ⟨sd2, hsd2, hsrc3, hdfp_none, hsp_sd2, hsp_none2, hne2⟩ :=
            moveToF_ok fs3 src2 ⟨dstRoot, sp.stem, sp.ext⟩ sp true fs4 src3 hsrc2p hrb
          have hsd2eq : sd2 = sd := by
            rw [hfs3, hdest_sd] at hsd2
            simpa using hsd2.symm
          refine ⟨?_, ?_, ?_⟩
          · rw [← h.2.1, hsrc3]
          · rw [← h.1, hdfp_none, ← hens ⟨dstRoot, sp.stem, sp.ext⟩, hdest_none]
          · rw [← h.1, hsp_sd2, hsd2eq, ← hens sp, hsd]
        | error er =>
          obtain ⟨_, _, hshape2⟩ := moveToF_err fs3 src2 sp true fs4 src3 er hrb
          rcases hshape2 with h2 | h2 | h2 <;> subst h2 <;> simp at h
      | fileImportingError m2 =>
        simp at h
        exact absurd rfl (hnoimp m2)
      | parserError c => simp at h
      | valueError => simp at h
      | typeError => simp at h
      | keyError => simp at h
      | fileNotFound => simp at h
      | fileExists => simp at h
      | notADirectory => simp at h
      | directoryIntegrityError issues => simp at h
      | fuelOut => simp at h

/-- C3 counterexample: importing (copy mode, indexing on) a file whose
mtime is the first epoch second of year 10000 makes genIndex raise the
ParserError(1000) that importFile does not catch: no ImportError is
raised and the copied file is left behind in the destination directory
with no rollback, while the claim demands an ImportError and a
destination free of the partial copy. -/
theorem importFile_indexing_escape_keeps_copy :
    (importFileF fsHugeMtime 5000 fHugeMtime dirQuar true true).2.2
        = .error (.parserError 1000)
      ∧ fget (importFileF fsHugeMtime 5000 fHugeMtime dirQuar true true).1 pHugeDest
        = some ⟨3, 2048, 253402300800, 253402300800⟩
      ∧ fget fsHugeMtime pHugeDest = none := by
  exact ⟨by decide, by decide, by decide⟩

/-- C3 amended: whenever importFile with indexing enabled fails with
its ImportError wrapper FileImportingError -- which covers every
indexing failure of kind FileIndexingError as well as the collision
failure of the copy or move itself -- the pre-import on-disk state at
the source path and at the destination path is restored: in copy mode
the destination holds no copy of the failed file and the source is
untouched, in move mode the file is back at its original location and
the handle points there again.  An indexing failure that instead
raises a ParserError escapes unwrapped without rollback (see the
counterexample). -/
theorem importFile_rollback_on_importing_error (fs : FS) (tNow : Int) (src : MFile)
    (dstRoot : List PyStr) (sp : FilePath) (m : ErrMsg) (fs' : FS) (src' : MFile)
    (hp : src.path = some sp) :
    (importFileF fs tNow src dstRoot true true
        = (fs', src', .error (.fileImportingError m)) →
      src' = src
        ∧ fget fs' ⟨dstRoot, sp.stem, sp.ext⟩ = fget fs ⟨dstRoot, sp.stem, sp.ext⟩
        ∧ fget fs' sp = fget fs sp)
    ∧ (importFileF fs tNow src dstRoot false true
        = (fs', src', .error (.fileImportingError m)) →
      src'.path = some sp
        ∧ fget fs' ⟨dstRoot, sp.stem, sp.ext⟩ = fget fs ⟨dstRoot, sp.stem, sp.ext⟩
        ∧ fget fs' sp = fget fs sp) :=
  ⟨fun h => importFile_rollback_copy fs tNow src dstRoot sp m fs' src' hp h,
   fun h => importFile_rollback_move fs tNow src dstRoot sp m fs' src' hp h⟩

/-- C3 amended witness: the rollback conclusions at the concrete
collision scenario of the repository test (a file already sits in
quarantine under exactly the index the import generates, so setIndex
fails with the same-index FileIndexingError, the copy is deleted and
FileImportingError is raised). -/
theorem importFile_rollback_witness :
    (importFileF fsCollide 5000 fCollide dirQuar true true).2.1 = fCollide
      ∧ fget (importFileF fsCollide 5000 fCollide dirQuar true true).1
          (⟨dirQuar, sMedia1, sDat⟩ : FilePath)
        = fget fsCollide (⟨dirQuar, sMedia1, sDat⟩ : FilePath)
      ∧ fget (importFileF fsCollide 5000 fCollide dirQuar true true).1
          (⟨dirSrc, sMedia1, sDat⟩ : FilePath)
        = fget fsCollide (⟨dirSrc, sMedia1, sDat⟩ : FilePath) :=
  (importFile_rollback_on_importing_error fsCollide 5000 fCollide dirQuar
    ⟨dirSrc, sMedia1, sDat⟩ .sameIndexExists
    (importFileF fsCollide 5000 fCollide dirQuar true true).1
    (importFileF fsCollide 5000 fCollide dirQuar true true).2.1
    (by decide)).1 (by decide)
